import Mathlib

/-!
# go-weather: a shallow embedding of `main.go`

The program chains two HTTP APIs (geocoding, then hourly forecast) and reshapes
the forecast into display rows.  This file embeds

* the repository functions `getLatLong`, `getWeather`, `getWeatherByQuery`,
  `extractWeatherData` and the three route handlers of `main`, and
* the parts of the Go standard library that decide what those functions return:
  `time.Parse` / `Time.Format` for the two layouts used, `fmt.Sprintf` with the
  verbs `%.1f` and `%.6f`, `url.QueryEscape`, and `encoding/json` decoding into
  the two response structs.

Go strings are Lean strings (sequences of Unicode scalar values, so every
payload considered is valid UTF-8).  A `float64` is a finite binary
floating-point number given exactly by sign, integer significand and binary
exponent: every float in this program comes out of the JSON decoder, which
never produces an infinity or a NaN.
-/

namespace GoWeather

/-! ## Characters and small string helpers -/

/-- Go `isDigit` on one character: an ASCII decimal digit. -/
def isDigitChar (c : Char) : Bool := 48 ≤ c.toNat && c.toNat ≤ 57

/-- Numeric value of an ASCII digit (`c - '0'`). -/
def digitVal (c : Char) : Nat := c.toNat - 48

/-- Decimal digits of a natural number, most significant first (`strconv.Itoa`). -/
def natDigits (n : Nat) : List Char := Nat.toDigits 10 n

/-- Left-pads a digit string with `'0'` up to `width` characters. -/
def zeroPad (width : Nat) (ds : List Char) : List Char :=
  List.replicate (width - ds.length) '0' ++ ds

/-! ## `package time`: parsing and formatting for the layouts used -/

/-- Package `time`, `getnum`: reads one or two leading digits; with `fixed` exactly two. -/
def getnum (s : List Char) (fixed : Bool) : Option (Nat × List Char) :=
  match s with
  | [] => none
  | c0 :: rest =>
    if !isDigitChar c0 then none
    else
      match rest with
      | c1 :: rest1 =>
        if isDigitChar c1 then some (digitVal c0 * 10 + digitVal c1, rest1)
        else if fixed then none
        else some (digitVal c0, rest)
      | [] => if fixed then none else some (digitVal c0, rest)

/-- Package `time`, the `stdLongYear` case of `Parse`: the value must start with four
characters, the first a digit, and `atoi` of those four must consume them all. -/
def getLongYear (s : List Char) : Option (Nat × List Char) :=
  match s with
  | a :: b :: c :: d :: rest =>
    if isDigitChar a && isDigitChar b && isDigitChar c && isDigitChar d then
      some (digitVal a * 1000 + digitVal b * 100 + digitVal c * 10 + digitVal d, rest)
    else none
  | _ => none

/-- Package `time`, `skip` for a one-character literal of the layout (none of the
literals of the layout is a space). -/
def skipLit (value : List Char) (lit : Char) : Option (List Char) :=
  match value with
  | [] => none
  | c :: rest => if c = lit then some rest else none

/-- Package `time`, `isLeap`. -/
def isLeap (year : Nat) : Bool :=
  year % 4 == 0 && (year % 100 != 0 || year % 400 == 0)

/-- Package `time`, `daysBefore[m]`: days in a non-leap year before month `m + 1`. -/
def daysBefore (m : Nat) : Nat :=
  match m with
  | 0 => 0
  | 1 => 31
  | 2 => 59
  | 3 => 90
  | 4 => 120
  | 5 => 151
  | 6 => 181
  | 7 => 212
  | 8 => 243
  | 9 => 273
  | 10 => 304
  | 11 => 334
  | _ => 365

/-- Package `time`, `daysIn`. -/
def daysIn (month year : Nat) : Nat :=
  if month = 2 && isLeap year then 29
  else daysBefore month - daysBefore (month - 1)

/-- The civil fields recognised by `time.Parse` with layout `2006-01-02T15:04`. -/
structure Civil where
  year : Nat
  month : Nat
  day : Nat
  hour : Nat
  min : Nat
  deriving DecidableEq, Repr

/-- Package `time`, `Parse` specialised to the layout `"2006-01-02T15:04"`: the
element-by-element scan of the value.  Year: four digits.  Month, day, minute: two
digits (`getnum` with `fixed`).  Hour: the layout element `15` reads one or two
digits.  Nothing may follow the minute, and the day must exist in the month. -/
def parseCivil (value : List Char) : Option Civil :=
  match getLongYear value with
  | none => none
  | some (year, v) =>
  match skipLit v '-' with
  | none => none
  | some v =>
  match getnum v true with
  | none => none
  | some (month, v) =>
  if month < 1 || 12 < month then none else
  match skipLit v '-' with
  | none => none
  | some v =>
  match getnum v true with
  | none => none
  | some (day, v) =>
  match skipLit v 'T' with
  | none => none
  | some v =>
  match getnum v false with
  | none => none
  | some (hour, v) =>
  if 24 ≤ hour then none else
  match skipLit v ':' with
  | none => none
  | some v =>
  match getnum v true with
  | none => none
  | some (min, v) =>
  if 60 ≤ min then none else
  if !v.isEmpty then none else
  if day < 1 || daysIn month year < day then none else
  some { year := year, month := month, day := day, hour := hour, min := min }

/-- Package `time`, `absoluteZeroYear = -292277022399`, negated. -/
def absoluteZeroYearNeg : Nat := 292277022399

/-- Package `time`, `daysSinceEpoch`: days from the absolute epoch to January 1 of
`year` (here `year ≥ 0`, as produced by a four-digit field). -/
def daysSinceEpoch (year : Nat) : Nat :=
  let y := year + absoluteZeroYearNeg
  let n400 := y / 400
  let y1 := y - 400 * n400
  let n100 := y1 / 100
  let y2 := y1 - 100 * n100
  let n4 := y2 / 4
  let y3 := y2 - 4 * n4
  146097 * n400 + 36524 * n100 + 1461 * n4 + 365 * y3

/-- A `time.Time` in UTC with zero nanoseconds, represented by its absolute second
count (seconds since January 1 of the absolute zero year), as `Time.abs` returns. -/
structure Time where
  abs : Nat
  deriving DecidableEq, Repr

/-- Package `time`, `Date(year, month, day, hour, min, 0, 0, UTC)` for fields already in
range (which `Parse` has checked). -/
def Date (c : Civil) : Time :=
  let d := daysSinceEpoch c.year + daysBefore (c.month - 1)
    + (if isLeap c.year && 3 ≤ c.month then 1 else 0) + (c.day - 1)
  { abs := d * 86400 + (c.hour * 3600 + c.min * 60) }

/-- Package `time`, `Parse("2006-01-02T15:04", value)`; `none` stands for the returned
`*ParseError`. -/
def timeParse (value : String) : Option Time :=
  (parseCivil value.toList).map Date

/-- Package `time`, `absWeekday`: 0 is Sunday; the absolute epoch is a Monday. -/
def absWeekday (abs : Nat) : Nat :=
  ((abs + 1 * 86400) % 604800) / 86400

/-- Package `time`, `longDayNames`. -/
def longDayName (wd : Nat) : String :=
  match wd with
  | 0 => "Sunday"
  | 1 => "Monday"
  | 2 => "Tuesday"
  | 3 => "Wednesday"
  | 4 => "Thursday"
  | 5 => "Friday"
  | _ => "Saturday"

/-- Package `time`, `appendInt(b, x, width)` for a non-negative `x`. -/
def appendInt (x width : Nat) : List Char := zeroPad width (natDigits x)

/-- Package `time`, `Time.Format("Mon 15:04")`: the first three letters of the weekday
name, a space, the hour and the minute, each zero-padded to two digits. -/
def timeFormat (t : Time) : String :=
  let sec := t.abs % 86400
  let hour := sec / 3600
  let min := (sec % 3600) / 60
  String.mk ((longDayName (absWeekday t.abs)).toList.take 3 ++ [' ']
    ++ appendInt hour 2 ++ [':'] ++ appendInt min 2)

/-! ## `float64`, `strconv.ParseFloat` and `strconv.FormatFloat` -/

/-- A finite `float64`: the number `(-1)^neg * mant * 2^exp`.  The decoder produces the
canonical form (`mant < 2^53`, `-1074 ≤ exp ≤ 971`, and `2^52 ≤ mant` unless
`exp = -1074`); negative zero keeps its sign, as in Go. -/
structure F64 where
  neg : Bool
  mant : Nat
  exp : Int
  deriving DecidableEq, Repr

/-- Rounds the fraction `n / d` to the nearest integer, ties to the even one. -/
def roundHalfEven (n d : Nat) : Nat :=
  let q := n / d
  let r := n % d
  if 2 * r < d then q
  else if d < 2 * r then q + 1
  else if q % 2 = 0 then q else q + 1

/-- Number of binary digits of `n`, computed with `fuel` halvings at most. -/
def bitLenFuel : Nat → Nat → Nat
  | 0, _ => 0
  | fuel + 1, n => if n = 0 then 0 else 1 + bitLenFuel fuel (n / 2)

/-- Number of binary digits of `n` (zero for zero). -/
def bitLen (n : Nat) : Nat := bitLenFuel n n

/-- Rounds the positive fraction `num / den` to `float64`: picks the binary exponent
that leaves a 53-bit significand (not below the subnormal exponent `-1074`), rounds to
nearest-even, renormalises after a carry, and reports overflow as `none`. -/
def roundToF64 (neg : Bool) (num den : Nat) : Option F64 :=
  let l : Int := (bitLen num : Int) - (bitLen den : Int)
  let geq : Bool := if 0 ≤ l then den * 2 ^ l.toNat ≤ num else den ≤ num * 2 ^ (-l).toNat
  let flog : Int := if geq then l else l - 1
  let e : Int := max (flog - 52) (-1074)
  let m : Nat :=
    if 0 ≤ e then roundHalfEven num (den * 2 ^ e.toNat)
    else roundHalfEven (num * 2 ^ (-e).toNat) den
  let me : Nat × Int := if 2 ^ 53 ≤ m then (m / 2, e + 1) else (m, e)
  if 971 < me.2 then none else some { neg := neg, mant := me.1, exp := me.2 }

/-- Model of `strconv.ParseFloat(s, 64)` on a decimal literal with sign `neg`, digit
string value `digits` and decimal exponent `exp10` (the number `digits * 10^exp10`): the
correctly rounded `float64`, or `none` when the result is out of range (`ErrRange`). -/
def parseFloat (neg : Bool) (digits : Nat) (exp10 : Int) : Option F64 :=
  if digits = 0 then some { neg := neg, mant := 0, exp := -1074 }
  else if 0 ≤ exp10 then roundToF64 neg (digits * 10 ^ exp10.toNat) 1
  else roundToF64 neg digits (10 ^ (-exp10).toNat)

/-- The integer nearest to `|v| * 10^prec` (ties to even): the digits that
`strconv.FormatFloat(v, 'f', prec, 64)` prints, the decimal point removed. -/
def scaledDigits (prec : Nat) (v : F64) : Nat :=
  if 0 ≤ v.exp then v.mant * 2 ^ v.exp.toNat * 10 ^ prec
  else roundHalfEven (v.mant * 10 ^ prec) (2 ^ (-v.exp).toNat)

/-- Model of `strconv.FormatFloat(v, 'f', prec, 64)` (the `%.<prec>f` verb of `fmt`): an
optional minus sign, the integer part (at least one digit), and for `prec > 0` a point
followed by exactly `prec` digits; the value is rounded to nearest, ties to even. -/
def formatFixed (prec : Nat) (v : F64) : List Char :=
  let n := scaledDigits prec v
  (if v.neg then ['-'] else []) ++ natDigits (n / 10 ^ prec)
    ++ (if prec = 0 then [] else '.' :: zeroPad prec (natDigits (n % 10 ^ prec)))

/-! ## `encoding/json`: syntax -/

/-- A JSON value.  A number keeps its literal exactly (sign, digit string value,
decimal exponent); a string is stored unquoted. -/
inductive JSON where
  | null
  | bool (b : Bool)
  | number (neg : Bool) (digits : Nat) (exp10 : Int)
  | string (s : String)
  | array (elems : List JSON)
  | object (members : List (String × JSON))

/-- Package `encoding/json`, `isSpace`. -/
def isSpace (c : Char) : Bool := c == ' ' || c == '\t' || c == '\r' || c == '\n'

/-- Drops leading JSON white space. -/
def skipSpace : List Char → List Char
  | [] => []
  | c :: cs => if isSpace c then skipSpace cs else c :: cs

/-- Value of a hexadecimal digit, in either case. -/
def hexVal (c : Char) : Option Nat :=
  if isDigitChar c then some (c.toNat - 48)
  else if 97 ≤ c.toNat && c.toNat ≤ 102 then some (c.toNat - 87)
  else if 65 ≤ c.toNat && c.toNat ≤ 70 then some (c.toNat - 55)
  else none

/-- The character a one-letter escape stands for (the escape `u` is handled apart). -/
def unescapeChar (e : Char) : Option Char :=
  if e = '"' then some '"'
  else if e = '\\' then some '\\'
  else if e = '/' then some '/'
  else if e = 'b' then some (Char.ofNat 8)
  else if e = 'f' then some (Char.ofNat 12)
  else if e = 'n' then some '\n'
  else if e = 'r' then some '\r'
  else if e = 't' then some '\t'
  else none

/-- Scans a string literal after its opening quote, up to the closing quote.  Returns
the UTF-16 code units written as `u` escapes and the code points of all other
characters, in order, with the input left after the closing quote.  Control characters
and unknown escapes are syntax errors. -/
def scanString : List Char → List Nat → Option (List Nat × List Char)
  | [], _ => none
  | c :: cs, acc =>
    if c = '"' then some (acc.reverse, cs)
    else if c = '\\' then
      match cs with
      | [] => none
      | e :: cs1 =>
        if e = 'u' then
          match cs1 with
          | h1 :: h2 :: h3 :: h4 :: cs2 =>
            match hexVal h1, hexVal h2, hexVal h3, hexVal h4 with
            | some a, some b, some c, some d =>
              scanString cs2 ((((a * 16 + b) * 16 + c) * 16 + d) :: acc)
            | _, _, _, _ => none
          | _ => none
        else
          match unescapeChar e with
          | some ch => scanString cs1 (ch.toNat :: acc)
          | none => none
    else if c.toNat < 32 then none
    else scanString cs (c.toNat :: acc)

/-- Package `encoding/json`, the surrogate handling of `unquote`: a high surrogate
followed by a low one is one character; any other surrogate becomes U+FFFD.  The first
argument is the high surrogate read just before, when there is one. -/
def decodeUnitsFrom : Option Nat → List Nat → List Char
  | pending, [] => if pending.isSome then [Char.ofNat 0xFFFD] else []
  | pending, u :: rest =>
    if pending.isSome && (0xDC00 ≤ u && u < 0xE000) then
      Char.ofNat (0x10000 + (pending.getD 0 - 0xD800) * 0x400 + (u - 0xDC00))
        :: decodeUnitsFrom none rest
    else
      (if pending.isSome then [Char.ofNat 0xFFFD] else []) ++
        (if 0xD800 ≤ u && u < 0xDC00 then decodeUnitsFrom (some u) rest
         else if 0xDC00 ≤ u && u < 0xE000 then Char.ofNat 0xFFFD :: decodeUnitsFrom none rest
         else Char.ofNat u :: decodeUnitsFrom none rest)

/-- The characters of a scanned string literal. -/
def decodeUnits (units : List Nat) : List Char := decodeUnitsFrom none units

/-- Splits off the leading decimal digits. -/
def spanDigits : List Char → List Char × List Char
  | [] => ([], [])
  | c :: cs =>
    if isDigitChar c then ((spanDigits cs).1.cons c, (spanDigits cs).2) else ([], c :: cs)

/-- Value of a string of decimal digits. -/
def digitsVal (ds : List Char) : Nat := ds.foldl (fun a c => a * 10 + digitVal c) 0

/-- Integer part of a number literal: a single `0`, or a nonzero digit and more digits. -/
def scanInt (cs : List Char) : Option (List Char × List Char) :=
  match cs with
  | [] => none
  | c :: rest =>
    if c = '0' then some ([c], rest)
    else if isDigitChar c then some (c :: (spanDigits rest).1, (spanDigits rest).2)
    else none

/-- Optional fraction of a number literal: a point and at least one digit. -/
def scanFrac (cs : List Char) : Option (List Char × List Char) :=
  match cs with
  | c :: rest =>
    if c = '.' then
      if (spanDigits rest).1.isEmpty then none else some (spanDigits rest)
    else some ([], cs)
  | [] => some ([], cs)

/-- Optional exponent of a number literal: `e` or `E`, an optional sign, at least one
digit. -/
def scanExp (cs : List Char) : Option (Int × List Char) :=
  match cs with
  | c :: rest =>
    if c = 'e' || c = 'E' then
      match rest with
      | s :: rest1 =>
        if s = '+' || s = '-' then
          if (spanDigits rest1).1.isEmpty then none
          else some (if s = '-' then -(digitsVal (spanDigits rest1).1 : Int)
                     else (digitsVal (spanDigits rest1).1 : Int), (spanDigits rest1).2)
        else if (spanDigits rest).1.isEmpty then none
        else some ((digitsVal (spanDigits rest).1 : Int), (spanDigits rest).2)
      | [] => none
    else some (0, cs)
  | [] => some (0, cs)

/-- Scans a number literal at the head of the input. -/
def scanNumber (cs : List Char) : Option (JSON × List Char) :=
  let neg := cs.head? = some '-'
  match scanInt (if neg then cs.tail else cs) with
  | none => none
  | some (ip, r1) =>
    match scanFrac r1 with
    | none => none
    | some (fp, r2) =>
      match scanExp r2 with
      | none => none
      | some (e, r3) => some (JSON.number neg (digitsVal (ip ++ fp)) (e - fp.length), r3)

/-- Matches a fixed word at the head of the input. -/
def scanWord (word cs : List Char) : Option (List Char) :=
  if cs.take word.length = word then some (cs.drop word.length) else none

/-- Elements of an array after the opening bracket (the array is known to be non-empty),
each read with `pv`; `n` bounds the number of elements and is one more than the length of
the input when called. -/
def parseElems (pv : List Char → Option (JSON × List Char)) :
    Nat → List Char → List JSON → Option (JSON × List Char)
  | 0, _, _ => none
  | n + 1, cs, acc =>
    match pv cs with
    | none => none
    | some (v, rest) =>
      match skipSpace rest with
      | [] => none
      | c :: rest1 =>
        if c = ',' then parseElems pv n rest1 (v :: acc)
        else if c = ']' then some (JSON.array (v :: acc).reverse, rest1)
        else none

/-- Members of an object after the opening brace (the object is known to be non-empty). -/
def parseMembers (pv : List Char → Option (JSON × List Char)) :
    Nat → List Char → List (String × JSON) → Option (JSON × List Char)
  | 0, _, _ => none
  | n + 1, cs, acc =>
    match skipSpace cs with
    | [] => none
    | q :: r0 =>
      if q ≠ '"' then none else
      match scanString r0 [] with
      | none => none
      | some (units, r1) =>
        match skipSpace r1 with
        | [] => none
        | colon :: r2 =>
          if colon ≠ ':' then none else
          match pv r2 with
          | none => none
          | some (v, r3) =>
            match skipSpace r3 with
            | [] => none
            | c :: r4 =>
              if c = ',' then parseMembers pv n r4 ((String.mk (decodeUnits units), v) :: acc)
              else if c = '}' then
                some (JSON.object ((String.mk (decodeUnits units), v) :: acc).reverse, r4)
              else none

/-- Package `encoding/json`, `maxNestingDepth`. -/
def maxNestingDepth : Nat := 10000

/-- Reads one JSON value (after optional white space) and returns it with the rest of
the input.  The first argument is one more than the number of arrays and objects that
may still be opened: the scanner of `encoding/json` refuses to nest deeper than
`maxNestingDepth`. -/
def parseValue : Nat → List Char → Option (JSON × List Char)
  | 0, _ => none
  | room + 1, cs =>
    match skipSpace cs with
    | [] => none
    | c :: rest =>
      if c = '{' then
        if room = 0 then none
        else if (skipSpace rest).head? = some '}' then some (JSON.object [], (skipSpace rest).tail)
        else parseMembers (parseValue room) (rest.length + 1) rest []
      else if c = '[' then
        if room = 0 then none
        else if (skipSpace rest).head? = some ']' then some (JSON.array [], (skipSpace rest).tail)
        else parseElems (parseValue room) (rest.length + 1) rest []
      else if c = '"' then
        match scanString rest [] with
        | none => none
        | some (units, r) => some (JSON.string (String.mk (decodeUnits units)), r)
      else if c = 't' then (scanWord ['r', 'u', 'e'] rest).map fun r => (JSON.bool true, r)
      else if c = 'f' then (scanWord ['a', 'l', 's', 'e'] rest).map fun r => (JSON.bool false, r)
      else if c = 'n' then (scanWord ['u', 'l', 'l'] rest).map fun r => (JSON.null, r)
      else scanNumber (c :: rest)

/-- The first JSON value of the input, with what follows it. -/
def parseFirst (input : String) : Option (JSON × List Char) :=
  parseValue (maxNestingDepth + 1) input.toList

/-- Package `encoding/json`, `checkValid` followed by scanning: the whole input is one
JSON value surrounded by optional white space. -/
def parseWhole (input : String) : Option JSON :=
  match parseFirst input with
  | some (v, rest) => if (skipSpace rest).isEmpty then some v else none
  | none => none

/-! ## `encoding/json`: decoding into the structs of `main.go` -/

/-- The two ways decoding fails: the input is not (a prefix holding) a JSON value
(`SyntaxError`, `io.EOF`, `io.ErrUnexpectedEOF`), or a value does not fit the Go type
it is decoded into (`UnmarshalTypeError`). -/
inductive JsonError where
  | invalid
  | typeMismatch
  deriving DecidableEq, Repr

/-- Go type `LatLong`. -/
structure LatLong where
  Latitude : F64
  Longitude : F64
  deriving DecidableEq, Repr

/-- Go type `GeoResponse`. -/
structure GeoResponse where
  Results : List LatLong
  deriving DecidableEq, Repr

/-- The anonymous struct type of the field `Hourly` of `WeatherResponse`. -/
structure HourlyData where
  Time : List String
  Temperature2m : List F64
  deriving DecidableEq, Repr

/-- Go type `WeatherResponse`. -/
structure WeatherResponse where
  Latitude : F64
  Longitude : F64
  Timezone : String
  Hourly : HourlyData
  deriving DecidableEq, Repr

/-- The `float64` zero value. -/
def F64.zero : F64 := { neg := false, mant := 0, exp := -1074 }

/-- The zero value of `LatLong`. -/
def LatLong.zero : LatLong := { Latitude := F64.zero, Longitude := F64.zero }

/-- The zero value of `WeatherResponse` (`var weatherResponse WeatherResponse`). -/
def WeatherResponse.zero : WeatherResponse :=
  { Latitude := F64.zero, Longitude := F64.zero, Timezone := "",
    Hourly := { Time := [], Temperature2m := [] } }

/-- Case folding of one character of an object key, as far as it can matter for the
ASCII field names of this program: ASCII letters fold to upper case, and the only other
characters folding onto an ASCII letter are U+017F (onto `S`) and U+212A (onto `K`). -/
def foldChar (c : Char) : Char :=
  if 97 ≤ c.toNat && c.toNat ≤ 122 then Char.ofNat (c.toNat - 32)
  else if c.toNat = 0x17F then 'S'
  else if c.toNat = 0x212A then 'K'
  else c

/-- An object key selects the struct field tagged `field` when it is equal to the tag
or equal to it under case folding. -/
def nameMatches (key field : String) : Bool :=
  key == field || key.toList.map foldChar == field.toList.map foldChar

/-- Decoding a JSON value into a `float64` holding `cur`: a number is converted with
`strconv.ParseFloat` (out of range is an `UnmarshalTypeError`), `null` leaves the value
alone, anything else is an `UnmarshalTypeError`. -/
def decodeFloat (cur : F64) : JSON → Except JsonError F64
  | JSON.number neg digits exp10 =>
    match parseFloat neg digits exp10 with
    | some x => Except.ok x
    | none => Except.error JsonError.typeMismatch
  | JSON.null => Except.ok cur
  | _ => Except.error JsonError.typeMismatch

/-- Decoding a JSON value into a `string` holding `cur`. -/
def decodeString (cur : String) : JSON → Except JsonError String
  | JSON.string s => Except.ok s
  | JSON.null => Except.ok cur
  | _ => Except.error JsonError.typeMismatch

/-- A Go slice as the decoder meets it: its elements, and what its backing array holds
behind them (`spare`); every slot of a backing array that was never written is zero, so
slots behind `spare` count as zero. -/
structure SliceCell (α : Type) where
  elems : List α
  spare : List α

/-- The nil slice. -/
def SliceCell.nil {α : Type} : SliceCell α := { elems := [], spare := [] }

/-- Decodes the elements of a JSON array one by one, in order, each into the slot of the
slice it lands in: `old` lists what the slots hold (zero where `old` ends), and `f`
decodes one JSON value into a slot holding a given value. -/
def decodeElems {α : Type} (f : α → JSON → Except JsonError α) (zero : α) :
    List α → List JSON → Except JsonError (List α)
  | _, [] => Except.ok []
  | old, v :: vs =>
    match f (old.headD zero) v with
    | Except.error e => Except.error e
    | Except.ok a =>
      match decodeElems f zero old.tail vs with
      | Except.error e => Except.error e
      | Except.ok rest => Except.ok (a :: rest)

/-- Decoding a JSON value into a slice, as `decodeState.array` does: the elements of a
non-empty array are decoded in place, element `i` into slot `i` of the backing array
(the slice is lengthened over its spare slots and grown with zero slots as needed), and
the length becomes the number of array elements; the empty array gives a fresh empty
slice and `null` the nil slice; anything else is an `UnmarshalTypeError`. -/
def decodeSlice {α : Type} (f : α → JSON → Except JsonError α) (zero : α)
    (cur : SliceCell α) : JSON → Except JsonError (SliceCell α)
  | JSON.array elems =>
    if elems.isEmpty then Except.ok SliceCell.nil
    else
      match decodeElems f zero (cur.elems ++ cur.spare) elems with
      | Except.error e => Except.error e
      | Except.ok r =>
        Except.ok { elems := r, spare := (cur.elems ++ cur.spare).drop elems.length }
  | JSON.null => Except.ok SliceCell.nil
  | _ => Except.error JsonError.typeMismatch

/-- Decodes the members of a JSON object in input order into a struct value: `f` stores
one member (members naming no field are skipped by `f`), so a repeated key is decoded
again over the result of its earlier occurrence. -/
def decodeMembers {σ : Type} (f : σ → String × JSON → Except JsonError σ) :
    σ → List (String × JSON) → Except JsonError σ
  | cur, [] => Except.ok cur
  | cur, kv :: rest =>
    match f cur kv with
    | Except.error e => Except.error e
    | Except.ok next => decodeMembers f next rest

/-- Decoding a JSON value into a struct: an object is decoded member by member, `null`
leaves the struct alone, anything else is an `UnmarshalTypeError`. -/
def decodeStruct {σ : Type} (f : σ → String × JSON → Except JsonError σ) (cur : σ) :
    JSON → Except JsonError σ
  | JSON.object members => decodeMembers f cur members
  | JSON.null => Except.ok cur
  | _ => Except.error JsonError.typeMismatch

/-- One member of an object decoded into a `LatLong`. -/
def LatLong.member (cur : LatLong) (kv : String × JSON) : Except JsonError LatLong :=
  if nameMatches kv.1 "latitude" then
    (decodeFloat cur.Latitude kv.2).map fun x => { cur with Latitude := x }
  else if nameMatches kv.1 "longitude" then
    (decodeFloat cur.Longitude kv.2).map fun x => { cur with Longitude := x }
  else Except.ok cur

/-- The variable `response` of `getLatLong` while it is decoded into: the `Results`
slice with its backing array. -/
structure GeoCell where
  Results : SliceCell LatLong

/-- The `Hourly` struct while it is decoded into: both slices with their backing
arrays. -/
structure HourlyCell where
  Time : SliceCell String
  Temperature2m : SliceCell F64

/-- The variable `weatherResponse` of `extractWeatherData` while it is decoded into. -/
structure WeatherCell where
  Latitude : F64
  Longitude : F64
  Timezone : String
  Hourly : HourlyCell

/-- One member of an object decoded into a `GeoResponse`. -/
def GeoResponse.member (cur : GeoCell) (kv : String × JSON) : Except JsonError GeoCell :=
  if nameMatches kv.1 "results" then
    (decodeSlice (decodeStruct LatLong.member) LatLong.zero cur.Results kv.2).map
      fun r => { cur with Results := r }
  else Except.ok cur

/-- One member of an object decoded into the `Hourly` struct. -/
def HourlyData.member (cur : HourlyCell) (kv : String × JSON) : Except JsonError HourlyCell :=
  if nameMatches kv.1 "time" then
    (decodeSlice decodeString "" cur.Time kv.2).map fun r => { cur with Time := r }
  else if nameMatches kv.1 "temperature_2m" then
    (decodeSlice decodeFloat F64.zero cur.Temperature2m kv.2).map
      fun r => { cur with Temperature2m := r }
  else Except.ok cur

/-- One member of an object decoded into a `WeatherResponse`. -/
def WeatherResponse.member (cur : WeatherCell) (kv : String × JSON) :
    Except JsonError WeatherCell :=
  if nameMatches kv.1 "latitude" then
    (decodeFloat cur.Latitude kv.2).map fun x => { cur with Latitude := x }
  else if nameMatches kv.1 "longitude" then
    (decodeFloat cur.Longitude kv.2).map fun x => { cur with Longitude := x }
  else if nameMatches kv.1 "timezone" then
    (decodeString cur.Timezone kv.2).map fun x => { cur with Timezone := x }
  else if nameMatches kv.1 "hourly" then
    (decodeStruct HourlyData.member cur.Hourly kv.2).map fun x => { cur with Hourly := x }
  else Except.ok cur

/-- The `GeoResponse` the program sees after decoding. -/
def GeoCell.value (c : GeoCell) : GeoResponse := { Results := c.Results.elems }

/-- The `WeatherResponse` the program sees after decoding. -/
def WeatherCell.value (c : WeatherCell) : WeatherResponse :=
  { Latitude := c.Latitude, Longitude := c.Longitude, Timezone := c.Timezone,
    Hourly := { Time := c.Hourly.Time.elems, Temperature2m := c.Hourly.Temperature2m.elems } }

/-- The zero value of `WeatherResponse` as the decoder starts from it. -/
def WeatherCell.zero : WeatherCell :=
  { Latitude := F64.zero, Longitude := F64.zero, Timezone := "",
    Hourly := { Time := SliceCell.nil, Temperature2m := SliceCell.nil } }

/-- Model of `json.NewDecoder(body).Decode(&response)` for a `GeoResponse` that starts
as the zero value and a body read without error: the first JSON value of the body is
decoded, whatever follows it is not looked at. -/
def decodeGeoResponse (body : String) : Except JsonError GeoResponse :=
  match parseFirst body with
  | none => Except.error JsonError.invalid
  | some (v, _) =>
    (decodeStruct GeoResponse.member { Results := SliceCell.nil } v).map GeoCell.value

/-- Model of `json.Unmarshal([]byte(raw), &weatherResponse)` for a `WeatherResponse`
that starts as the zero value: the whole input must be one JSON value. -/
def unmarshalWeatherResponse (raw : String) : Except JsonError WeatherResponse :=
  match parseWhole raw with
  | none => Except.error JsonError.invalid
  | some v => (decodeStruct WeatherResponse.member WeatherCell.zero v).map WeatherCell.value

/-! ## `net/url` and `net/http` -/

/-- The UTF-8 encoding of a character, as a list of bytes. -/
def utf8Bytes (c : Char) : List Nat :=
  let n := c.toNat
  if n < 0x80 then [n]
  else if n < 0x800 then [0xC0 + n / 0x40, 0x80 + n % 0x40]
  else if n < 0x10000 then [0xE0 + n / 0x1000, 0x80 + n / 0x40 % 0x40, 0x80 + n % 0x40]
  else [0xF0 + n / 0x40000, 0x80 + n / 0x1000 % 0x40, 0x80 + n / 0x40 % 0x40, 0x80 + n % 0x40]

/-- Package `net/url`, `shouldEscape(b, encodeQueryComponent)`: only ASCII letters,
digits and the four marks `-`, `_`, `.`, `~` are left alone. -/
def shouldEscape (b : Nat) : Bool :=
  !((97 ≤ b && b ≤ 122) || (65 ≤ b && b ≤ 90) || (48 ≤ b && b ≤ 57)
    || b = 45 || b = 95 || b = 46 || b = 126)

/-- Package `net/url`, the upper-case hexadecimal digit of a number below 16. -/
def upperHex (n : Nat) : Char :=
  if n < 10 then Char.ofNat (48 + n) else Char.ofNat (55 + n)

/-- Package `net/url`, `QueryEscape`: a space becomes `+`, every other byte that must be
escaped becomes `%XX`. -/
def QueryEscape (s : String) : String :=
  String.mk (s.toList.flatMap fun c => (utf8Bytes c).flatMap fun b =>
    if b = 32 then ['+']
    else if shouldEscape b then ['%', upperHex (b / 16), upperHex (b % 16)]
    else [Char.ofNat b])

/-- The outside world as the program meets it through `http.Get`.  `respond url` is
what a GET of `url` yields: `error msg` when the request cannot be made, otherwise the
outcome of reading the response body to its end (`error msg` when the read fails, else
the body).  `requests` records the URLs requested so far, oldest first. -/
structure Net where
  respond : String → Except String (Except String String)
  requests : List String

/-- One `http.Get(url)`: the answer of the outside world, and the request recorded. -/
def Net.Get (net : Net) (url : String) : Except String (Except String String) × Net :=
  (net.respond url, { net with requests := net.requests ++ [url] })

/-! ## `main.go` -/

/-- Go type `Forecast`. -/
structure Forecast where
  Date : String
  Temperature : String
  deriving DecidableEq, Repr

/-- Go type `WeatherDisplay`. -/
structure WeatherDisplay where
  City : String
  Forecasts : List Forecast
  deriving DecidableEq, Repr

/-- What an error wraps with the verb `%w`: the error of an HTTP request or body read
(with its message), or a decoding error of `encoding/json`. -/
inductive Cause where
  | http (msg : String)
  | json (e : JsonError)
  deriving DecidableEq, Repr

/-- The `error` values of the program: `errors.New(text)`, `fmt.Errorf(text + ": %w",
cause)`, and the `*time.ParseError` for a rejected `value`. -/
inductive Error where
  | New (text : String)
  | Errorf (text : String) (cause : Cause)
  | ParseError (value : String)
  deriving DecidableEq, Repr

/-- Run-time panics the program can raise. -/
inductive Panic where
  | indexOutOfRange (index length : Nat)
  | nilDereference
  deriving DecidableEq, Repr

/-- A Go call either returns its results or panics. -/
inductive Outcome (α : Type) where
  | returned (a : α)
  | panicked (p : Panic)
  deriving DecidableEq, Repr

/-- The empty `WeatherDisplay{}`. -/
def WeatherDisplay.empty : WeatherDisplay := { City := "", Forecasts := [] }

/-- The URL requested by `getLatLong`. -/
def geoEndpoint (city : String) : String :=
  "https://geocoding-api.open-meteo.com/v1/search?name=" ++ QueryEscape city
    ++ "&count=1&language=en&format=json"

/-- Function `getLatLong` of `main.go`: returns the pointer result (`none` is `nil`) and
the error result (`none` is `nil`).  A body whose read fails makes `Decode` fail with
that read error. -/
def getLatLong (net : Net) (city : String) : (Option LatLong × Option Error) × Net :=
  match net.Get (geoEndpoint city) with
  | (Except.error err, net1) =>
    ((none, some (Error.Errorf "error making request to Geo API" (Cause.http err))), net1)
  | (Except.ok (Except.error err), net1) =>
    ((none, some (Error.Errorf "error decoding response" (Cause.http err))), net1)
  | (Except.ok (Except.ok body), net1) =>
    match decodeGeoResponse body with
    | Except.error e =>
      ((none, some (Error.Errorf "error decoding response" (Cause.json e))), net1)
    | Except.ok response =>
      if response.Results.length < 1 then ((none, some (Error.New "no results found")), net1)
      else ((response.Results[0]?, none), net1)

/-- The query string that `getWeather` appends to the forecast endpoint. -/
def weatherQuery (latLong : LatLong) : String :=
  "latitude=" ++ String.mk (formatFixed 6 latLong.Latitude)
    ++ "&longitude=" ++ String.mk (formatFixed 6 latLong.Longitude)
    ++ "&hourly=temperature_2m"

/-- The URL requested by `getWeather`. -/
def weatherEndpoint (latLong : LatLong) : String :=
  "https://api.open-meteo.com/v1/forecast?" ++ weatherQuery latLong

/-- Function `getWeather` of `main.go`. -/
def getWeather (net : Net) (latLong : LatLong) : (String × Option Error) × Net :=
  match net.Get (weatherEndpoint latLong) with
  | (Except.error err, net1) =>
    (("", some (Error.Errorf "error making request to Weather API" (Cause.http err))), net1)
  | (Except.ok (Except.error err), net1) =>
    (("", some (Error.Errorf "error reading response body" (Cause.http err))), net1)
  | (Except.ok (Except.ok body), net1) => ((body, none), net1)

/-- The call `fmt.Sprintf("%.1f°C", x)`. -/
def sprintfTemperature (x : F64) : String := String.mk (formatFixed 1 x) ++ "°C"

/-- The `for i, t := range weatherResponse.Hourly.Time` loop of `extractWeatherData`,
from index `i` on with `forecasts` built so far; `times` are the entries still to visit.
In each round the timestamp is parsed first; the temperature is indexed afterwards. -/
def rangeTimes (city : String) (temperature2m : List F64) :
    List String → Nat → List Forecast → Outcome (WeatherDisplay × Option Error)
  | [], _, forecasts => Outcome.returned ({ City := city, Forecasts := forecasts }, none)
  | t :: times, i, forecasts =>
    match timeParse t with
    | none => Outcome.returned (WeatherDisplay.empty, some (Error.ParseError t))
    | some date =>
      match temperature2m[i]? with
      | none => Outcome.panicked (Panic.indexOutOfRange i temperature2m.length)
      | some x =>
        rangeTimes city temperature2m times (i + 1)
          (forecasts ++ [{ Date := timeFormat date, Temperature := sprintfTemperature x }])

/-- Function `extractWeatherData` of `main.go`. -/
def extractWeatherData (city rawWeather : String) : Outcome (WeatherDisplay × Option Error) :=
  match unmarshalWeatherResponse rawWeather with
  | Except.error e =>
    Outcome.returned (WeatherDisplay.empty,
      some (Error.Errorf "error decoding weather response" (Cause.json e)))
  | Except.ok weatherResponse =>
    rangeTimes city weatherResponse.Hourly.Temperature2m weatherResponse.Hourly.Time 0 []

/-- The `gin.H` maps the handlers send, each with a single key: `error` with
`err.Error()` (the error stands for its message), `OK` with the display, `weather` with
the raw forecast body. -/
inductive H where
  | error (err : Error)
  | OK (weatherDisplay : WeatherDisplay)
  | weather (weather : String)
  deriving DecidableEq, Repr

/-- What a handler writes: `c.JSON(code, h)` or `c.HTML(code, name, data)`. -/
inductive Reply where
  | JSON (code : Nat) (h : H)
  | HTML (code : Nat) (name : String) (data : Option WeatherDisplay)
  deriving DecidableEq, Repr

/-- Package `net/http`, `StatusInternalServerError`. -/
def StatusInternalServerError : Nat := 500

/-- Package `net/http`, `StatusOK`. -/
def StatusOK : Nat := 200

/-- Function `getWeatherByQuery` of `main.go`; `city` is `c.Query("city")`. -/
def getWeatherByQuery (net : Net) (city : String) : Outcome Reply × Net :=
  match getLatLong net city with
  | ((_, some err), net1) =>
    (Outcome.returned (Reply.JSON StatusInternalServerError (H.error err)), net1)
  | ((none, none), net1) => (Outcome.panicked Panic.nilDereference, net1)
  | ((some latLong, none), net1) =>
    match getWeather net1 latLong with
    | ((_, some err), net2) =>
      (Outcome.returned (Reply.JSON StatusInternalServerError (H.error err)), net2)
    | ((weather, none), net2) =>
      (Outcome.returned (Reply.JSON StatusOK (H.weather weather)), net2)

/-- The handler of `GET /` in `main`. -/
def indexHandler (net : Net) : Outcome Reply × Net :=
  (Outcome.returned (Reply.HTML StatusOK "index.html" none), net)

/-- The handler of `GET /weather` in `main`; `city` is `c.Query("city")`.  A nil
`latlong` with a nil error would panic at `*latlong`; a panic of `extractWeatherData`
leaves the handler before anything is written. -/
def weatherHandler (net : Net) (city : String) : Outcome Reply × Net :=
  match getLatLong net city with
  | ((_, some err), net1) =>
    (Outcome.returned (Reply.JSON StatusInternalServerError (H.error err)), net1)
  | ((none, none), net1) => (Outcome.panicked Panic.nilDereference, net1)
  | ((some latlong, none), net1) =>
    match getWeather net1 latlong with
    | ((_, some err), net2) =>
      (Outcome.returned (Reply.JSON StatusInternalServerError (H.error err)), net2)
    | ((weather, none), net2) =>
      match extractWeatherData city weather with
      | Outcome.panicked p => (Outcome.panicked p, net2)
      | Outcome.returned (_, some err) =>
        (Outcome.returned (Reply.JSON StatusInternalServerError (H.error err)), net2)
      | Outcome.returned (weatherDisplay, none) =>
        (Outcome.returned (Reply.HTML StatusOK "weather.html" (some weatherDisplay)), net2)

/-- The handler of `GET /weatherJSON` in `main`; `city` is `c.Query("city")`. -/
def weatherJSONHandler (net : Net) (city : String) : Outcome Reply × Net :=
  match getLatLong net city with
  | ((_, some err), net1) =>
    (Outcome.returned (Reply.JSON StatusInternalServerError (H.error err)), net1)
  | ((none, none), net1) => (Outcome.panicked Panic.nilDereference, net1)
  | ((some latlong, none), net1) =>
    match getWeather net1 latlong with
    | ((_, some err), net2) =>
      (Outcome.returned (Reply.JSON StatusInternalServerError (H.error err)), net2)
    | ((weather, none), net2) =>
      match extractWeatherData city weather with
      | Outcome.panicked p => (Outcome.panicked p, net2)
      | Outcome.returned (_, some err) =>
        (Outcome.returned (Reply.JSON StatusInternalServerError (H.error err)), net2)
      | Outcome.returned (weatherDisplay, none) =>
        (Outcome.returned (Reply.JSON StatusOK (H.OK weatherDisplay)), net2)

/-- The two weather handlers differ only in their last call: this is their common text,
as a function of that call. -/
def weatherPipeline (render : WeatherDisplay → Reply) (net : Net) (city : String) :
    Outcome Reply × Net :=
  match getLatLong net city with
  | ((_, some err), net1) =>
    (Outcome.returned (Reply.JSON StatusInternalServerError (H.error err)), net1)
  | ((none, none), net1) => (Outcome.panicked Panic.nilDereference, net1)
  | ((some latlong, none), net1) =>
    match getWeather net1 latlong with
    | ((_, some err), net2) =>
      (Outcome.returned (Reply.JSON StatusInternalServerError (H.error err)), net2)
    | ((weather, none), net2) =>
      match extractWeatherData city weather with
      | Outcome.panicked p => (Outcome.panicked p, net2)
      | Outcome.returned (_, some err) =>
        (Outcome.returned (Reply.JSON StatusInternalServerError (H.error err)), net2)
      | Outcome.returned (weatherDisplay, none) =>
        (Outcome.returned (render weatherDisplay), net2)

/-! ## Specification-side definitions

The calendar and the renderings as the specification words them, independent of the
library code above, and the concrete payloads used as examples. -/

/-- Gregorian leap-year rule: every fourth year, except centuries not divisible by 400. -/
def leapYear (y : Nat) : Bool := (y % 4 = 0 && y % 100 ≠ 0) || y % 400 = 0

/-- Length of month `m` (1 to 12) of year `y` in the proleptic Gregorian calendar. -/
def monthLength (y m : Nat) : Nat :=
  if m = 2 then (if leapYear y then 29 else 28)
  else if m = 4 || m = 6 || m = 9 || m = 11 then 30
  else if 1 ≤ m && m ≤ 12 then 31
  else 0

/-- Days in the years `0 .. y - 1`. -/
def daysBeforeYear : Nat → Nat
  | 0 => 0
  | y + 1 => daysBeforeYear y + (if leapYear y then 366 else 365)

/-- Days in the months `1 .. k` of year `y`. -/
def daysInMonths (y : Nat) : Nat → Nat
  | 0 => 0
  | k + 1 => daysInMonths y k + monthLength y (k + 1)

/-- Day of the week of the calendar date `y-m-d`, 0 for Sunday to 6 for Saturday, by
counting days from 0000-01-01, a Saturday. -/
def dayOfWeek (y m d : Nat) : Nat :=
  (6 + daysBeforeYear y + daysInMonths y (m - 1) + (d - 1)) % 7

/-- Three-letter English abbreviation of a day of the week (0 is Sunday). -/
def weekdayAbbrev (wd : Nat) : String :=
  if wd = 0 then "Sun" else if wd = 1 then "Mon" else if wd = 2 then "Tue"
  else if wd = 3 then "Wed" else if wd = 4 then "Thu" else if wd = 5 then "Fri" else "Sat"

/-- The pattern `YYYY-MM-DDTHH:MM`: sixteen characters, digits at the letter positions. -/
def matchesPattern (t : String) : Bool :=
  match t.toList with
  | [y1, y2, y3, y4, s1, m1, m2, s2, d1, d2, s3, h1, h2, s4, n1, n2] =>
    isDigitChar y1 && isDigitChar y2 && isDigitChar y3 && isDigitChar y4 && s1 == '-'
      && isDigitChar m1 && isDigitChar m2 && s2 == '-' && isDigitChar d1 && isDigitChar d2
      && s3 == 'T' && isDigitChar h1 && isDigitChar h2 && s4 == ':'
      && isDigitChar n1 && isDigitChar n2
  | _ => false

/-- The number written in the `len` characters of `t` from position `start`. -/
def fieldOf (t : String) (start len : Nat) : Nat :=
  digitsVal ((t.toList.drop start).take len)

/-- A well-formed timestamp: it matches `YYYY-MM-DDTHH:MM`, the date exists in the
calendar, and the time is a time of day on the 24-hour clock. -/
def wellFormedTimestamp (t : String) : Bool :=
  matchesPattern t && 1 ≤ fieldOf t 5 2 && fieldOf t 5 2 ≤ 12 && 1 ≤ fieldOf t 8 2
    && fieldOf t 8 2 ≤ monthLength (fieldOf t 0 4) (fieldOf t 5 2)
    && fieldOf t 11 2 ≤ 23 && fieldOf t 14 2 ≤ 59

/-- The display date the specification asks for: the abbreviated weekday of the
calendar date, one space, and the `HH:MM` of the input. -/
def expectedDate (t : String) : String :=
  weekdayAbbrev (dayOfWeek (fieldOf t 0 4) (fieldOf t 5 2) (fieldOf t 8 2)) ++ " "
    ++ String.mk (t.toList.drop 11)

/-- `s` renders the magnitude of `x` in decimal with a point and exactly `prec` digits
after it, after an optional minus sign; the digits before the point have no leading
zero, and the digits before and after the point, read as one number `n`, satisfy `|n / 10^prec - |x|| ≤ 1 / (2 * 10^prec)` (stated with the
denominators multiplied out). -/
def IsFixedRendering (prec : Nat) (x : F64) (s : List Char) : Prop :=
  ∃ whole frac : List Char,
    s = (if x.neg then ['-'] else []) ++ whole ++ '.' :: frac
      ∧ whole ≠ [] ∧ (∀ c ∈ whole, isDigitChar c = true)
      ∧ (whole = ['0'] ∨ whole.head? ≠ some '0')
      ∧ frac.length = prec ∧ (∀ c ∈ frac, isDigitChar c = true)
      ∧ 2 * |(digitsVal (whole ++ frac) : Int) * 2 ^ (-x.exp).toNat
              - (x.mant : Int) * 2 ^ x.exp.toNat * 10 ^ prec| ≤ 2 ^ (-x.exp).toNat

/-- `s` is the rendering of the magnitude of `x` in decimal with a point and exactly
`prec` digits after it, after an optional minus sign, rounded to the nearest such number
and, when `|x|` lies exactly halfway between two of them, to the one whose last digit is
even.  With `n` the digits before and after the point read as one number: `|n / 10^prec
- |x|| ≤ 1 / (2 * 10^prec)`, and `n` is even when equality holds. -/
def IsNearestEvenRendering (prec : Nat) (x : F64) (s : List Char) : Prop :=
  ∃ whole frac : List Char,
    s = (if x.neg then ['-'] else []) ++ whole ++ '.' :: frac
      ∧ whole ≠ [] ∧ (∀ c ∈ whole, isDigitChar c = true)
      ∧ (whole = ['0'] ∨ whole.head? ≠ some '0')
      ∧ frac.length = prec ∧ (∀ c ∈ frac, isDigitChar c = true)
      ∧ 2 * |(digitsVal (whole ++ frac) : Int) * 2 ^ (-x.exp).toNat
              - (x.mant : Int) * 2 ^ x.exp.toNat * 10 ^ prec| ≤ 2 ^ (-x.exp).toNat
      ∧ (2 * |(digitsVal (whole ++ frac) : Int) * 2 ^ (-x.exp).toNat
              - (x.mant : Int) * 2 ^ x.exp.toNat * 10 ^ prec| = 2 ^ (-x.exp).toNat →
          digitsVal (whole ++ frac) % 2 = 0)

/-- A forecast body with one hourly sample. -/
def rawOneSample : String :=
  "\x7b\"hourly\":\x7b\"time\":[\"2023-10-01T00:00\"],\"temperature_2m\":[6.6]\x7d\x7d"

/-- A forecast body with three hourly samples. -/
def rawThreeSamples : String :=
  "\x7b\"latitude\":48.86,\"longitude\":2.36,\"timezone\":\"GMT\",\"hourly\":\x7b\"time\":[\"2023-10-01T00:00\",\"2023-10-01T01:00\",\"2023-10-01T02:00\"],\"temperature_2m\":[6.6,6.2,5.6]\x7d\x7d"

/-- A forecast body whose temperature is the literal 6.55. -/
def rawHalfway : String :=
  "\x7b\"hourly\":\x7b\"time\":[\"2023-10-01T00:00\",\"2023-10-01T01:00\"],\"temperature_2m\":[6.55,6.0]\x7d\x7d"

/-- A forecast body with two well-formed timestamps and one temperature. -/
def rawMissingTemperature : String :=
  "\x7b\"hourly\":\x7b\"time\":[\"2023-10-01T00:00\",\"2023-10-01T01:00\"],\"temperature_2m\":[6.6]\x7d\x7d"

/-- A forecast body whose first timestamp has a one-digit hour and whose second is
well-formed. -/
def rawMixedHours : String :=
  "\x7b\"hourly\":\x7b\"time\":[\"2023-10-01T5:04\",\"2023-10-01T06:00\"],\"temperature_2m\":[6.6,0.25]\x7d\x7d"

/-- A forecast body in which the key `temperature_2m` is repeated, the second time with
a `null` element. -/
def rawRepeatedTemperature : String :=
  "\x7b\"hourly\":\x7b\"time\":[\"2023-10-01T00:00\"],\"temperature_2m\":[6.6],\"temperature_2m\":[null]\x7d\x7d"

/-- A forecast body in which the key `time` is repeated, the second time with a `null`
element. -/
def rawRepeatedTime : String :=
  "\x7b\"hourly\":\x7b\"time\":[\"2023-10-01T00:00\"],\"time\":[null],\"temperature_2m\":[6.6]\x7d\x7d"

/-- The empty JSON object. -/
def rawEmptyObject : String :=
  "\x7b\x7d"

/-- A geocoding body with two results. -/
def geoTwoResults : String :=
  "\x7b\"results\":[\x7b\"latitude\":53.625,\"longitude\":55.9375\x7d,\x7b\"latitude\":48.85341,\"longitude\":2.3488\x7d]\x7d"

/-- A geocoding body with an empty `results` array. -/
def geoNoResults : String :=
  "\x7b\"results\": []\x7d"

/-- The contract of a weather route whose success reply is `success wd`: the reply is
`success wd` exactly when `getLatLong`, `getWeather` and `extractWeatherData` succeed in
turn with display `wd`; when one of them returns an error, the reply is status 500 with
the message of that error, the handler stops there, and after a failed `getLatLong` the
geocoding request is the only request that was made. -/
def PipelineContract (handler : Net → String → Outcome Reply × Net)
    (success : WeatherDisplay → Reply) : Prop :=
  ∀ (net : Net) (city : String),
    (∀ wd : WeatherDisplay,
      (handler net city).1 = Outcome.returned (success wd) ↔
        ∃ (latlong : LatLong) (weather : String),
          (getLatLong net city).1 = (some latlong, none)
          ∧ (getWeather (getLatLong net city).2 latlong).1 = (weather, none)
          ∧ extractWeatherData city weather = Outcome.returned (wd, none))
    ∧ (∀ (p : Option LatLong) (err : Error),
        (getLatLong net city).1 = (p, some err) →
          handler net city
              = (Outcome.returned (Reply.JSON StatusInternalServerError (H.error err)),
                 (getLatLong net city).2)
          ∧ (handler net city).2.requests = net.requests ++ [geoEndpoint city])
    ∧ (∀ (latlong : LatLong) (weather : String) (err : Error),
        (getLatLong net city).1 = (some latlong, none) →
        (getWeather (getLatLong net city).2 latlong).1 = (weather, some err) →
          handler net city
              = (Outcome.returned (Reply.JSON StatusInternalServerError (H.error err)),
                 (getWeather (getLatLong net city).2 latlong).2)
          ∧ (handler net city).2.requests
              = net.requests ++ [geoEndpoint city, weatherEndpoint latlong])
    ∧ (∀ (latlong : LatLong) (weather : String) (wd : WeatherDisplay) (err : Error),
        (getLatLong net city).1 = (some latlong, none) →
        (getWeather (getLatLong net city).2 latlong).1 = (weather, none) →
        extractWeatherData city weather = Outcome.returned (wd, some err) →
          (handler net city).1
            = Outcome.returned (Reply.JSON StatusInternalServerError (H.error err)))

/-- A stub of the two APIs: the geocoding request for `city` is answered with the body
`geo`, every other request with the body `weather`; no request has been made yet. -/
def stubNet (city geo weather : String) : Net :=
  { respond := fun url =>
      if url = geoEndpoint city then Except.ok (Except.ok geo)
      else Except.ok (Except.ok weather),
    requests := [] }

/-- A stub in which the geocoding request itself fails. -/
def downNet : Net :=
  { respond := fun _ => Except.error "connection refused", requests := [] }

/-- The coordinate of the example in the documentation of `getWeather`. -/
def sampleLatLong : LatLong :=
  { Latitude := { neg := false, mant := 7547047813054464, exp := -47 },
    Longitude := { neg := false, mant := 7872503254876160, exp := -47 } }

/-! ## Theorems

Auxiliary lemmas first, then one theorem for each claim. -/

set_option maxRecDepth 20000

theorem isDigitChar_iff (c : Char) : isDigitChar c = true ↔ 48 ≤ c.toNat ∧ c.toNat ≤ 57 := by
  simp [isDigitChar]

theorem digitChar_isDigit (n : Nat) (h : n < 10) :
    isDigitChar (Nat.digitChar n) = true ∧ digitVal (Nat.digitChar n) = n := by
  interval_cases n <;> decide

theorem digitsVal_append (a b : List Char) :
    digitsVal (a ++ b) = digitsVal a * 10 ^ b.length + digitsVal b := by
  induction b using List.reverseRecOn with
  | nil => simp [digitsVal]
  | append_singleton b c ih =>
    have step : ∀ l : List Char, digitsVal (l ++ [c]) = digitsVal l * 10 + digitVal c := by
      intro l; simp [digitsVal, List.foldl_append]
    rw [← List.append_assoc, step, step, ih]
    simp only [List.length_append, List.length_singleton, pow_succ]
    ring

theorem digitsVal_cons (c : Char) (ds : List Char) :
    digitsVal (c :: ds) = digitVal c * 10 ^ ds.length + digitsVal ds := by
  have h := digitsVal_append [c] ds
  simpa [digitsVal] using h

/-- The digits `Nat.toDigitsCore` puts in front of its accumulator. -/
theorem toDigitsCore_spec (fuel : Nat) : ∀ (n : Nat) (ds : List Char), n < fuel →
    ∃ pre : List Char, Nat.toDigitsCore 10 fuel n ds = pre ++ ds ∧ pre ≠ []
      ∧ (∀ c ∈ pre, isDigitChar c = true) ∧ digitsVal pre = n
      ∧ (pre = ['0'] ∨ pre.head? ≠ some '0') := by
  induction fuel with
  | zero => intro n ds h; omega
  | succ fuel ih =>
    intro n ds h
    have hd := digitChar_isDigit (n % 10) (Nat.mod_lt _ (by decide))
    simp only [Nat.toDigitsCore]
    by_cases h0 : n / 10 = 0
    · simp only [h0, if_true]
      have hn : n % 10 = n := by omega
      refine ⟨[Nat.digitChar (n % 10)], by simp, by simp, ?_, ?_, ?_⟩
      · intro c hc; simp at hc; rw [hc]; exact hd.1
      · have h2 := hd.2
        rw [hn] at h2 ⊢
        simp [digitsVal, h2]
      · rw [hn]
        have hlt : n < 10 := by omega
        interval_cases n <;> decide
    · simp only [h0, if_false]
      obtain ⟨pre, hpre, hne, hdig, hval, hlead⟩ :=
        ih (n / 10) (Nat.digitChar (n % 10) :: ds) (by omega)
      refine ⟨pre ++ [Nat.digitChar (n % 10)], by simp [hpre], by simp, ?_, ?_, ?_⟩
      · intro c hc
        rcases List.mem_append.1 hc with h1 | h1
        · exact hdig c h1
        · simp at h1; rw [h1]; exact hd.1
      · rw [digitsVal_append, hval]
        simp [digitsVal, hd.2]
        omega
      · right
        rcases hlead with h1 | h1
        · exfalso
          rw [h1] at hval
          simp [digitsVal, digitVal] at hval
          omega
        · cases pre with
          | nil => exact absurd rfl hne
          | cons a t => simpa using h1

theorem natDigits_spec (n : Nat) :
    natDigits n ≠ [] ∧ (∀ c ∈ natDigits n, isDigitChar c = true) ∧ digitsVal (natDigits n) = n
      ∧ (natDigits n = ['0'] ∨ (natDigits n).head? ≠ some '0') := by
  obtain ⟨pre, hpre, hne, hdig, hval, hlead⟩ := toDigitsCore_spec (n + 1) n [] (by omega)
  have h : natDigits n = pre := by simp [natDigits, Nat.toDigits, hpre]
  rw [h]
  exact ⟨hne, hdig, hval, hlead⟩

theorem natDigits_length_le (n k : Nat) (hk : 0 < k) (h : n < 10 ^ k) :
    (natDigits n).length ≤ k := by
  have := Nat.toDigitsCore_length 10 (by decide) (n + 1) n k h hk
  simpa [natDigits, Nat.toDigits] using this

theorem digitsVal_replicate_zero (k : Nat) (ds : List Char) :
    digitsVal (List.replicate k '0' ++ ds) = digitsVal ds := by
  induction k with
  | zero => simp
  | succ k ih =>
    rw [List.replicate_succ, List.cons_append, digitsVal_cons, ih]
    simp [digitVal]

theorem zeroPad_spec (n k : Nat) (hk : 0 < k) (h : n < 10 ^ k) :
    (zeroPad k (natDigits n)).length = k ∧ (∀ c ∈ zeroPad k (natDigits n), isDigitChar c = true)
      ∧ digitsVal (zeroPad k (natDigits n)) = n := by
  have hlen := natDigits_length_le n k hk h
  obtain ⟨_, hdig, hval, _⟩ := natDigits_spec n
  refine ⟨?_, ?_, ?_⟩
  · simp [zeroPad]; omega
  · intro c hc
    simp only [zeroPad, List.mem_append, List.mem_replicate] at hc
    rcases hc with ⟨_, h1⟩ | h1
    · rw [h1]; decide
    · exact hdig c h1
  · rw [zeroPad, digitsVal_replicate_zero, hval]
theorem roundHalfEven_near (n d : Nat) (hd : 0 < d) :
    2 * |(roundHalfEven n d : Int) * d - n| ≤ d := by
  have hdm := Nat.div_add_mod n d
  have hlt := Nat.mod_lt n hd
  have key : ∀ a : Int, -(d : Int) ≤ 2 * a → 2 * a ≤ d → 2 * |a| ≤ d := by
    intro a h1 h2
    rcases abs_cases a with ⟨h, _⟩ | ⟨h, _⟩ <;> rw [h] <;> omega
  generalize hx : d * (n / d) = x at hdm
  have hq : ((n / d : Nat) : Int) * (d : Int) = (x : Int) := by
    rw [← hx]; push_cast; ring
  have hq1 : ((n / d + 1 : Nat) : Int) * (d : Int) = (x : Int) + d := by
    rw [← hx]; push_cast; ring
  unfold roundHalfEven
  simp only
  split_ifs
  · rw [hq]; apply key <;> omega
  · rw [hq1]; apply key <;> omega
  · rw [hq]; apply key <;> omega
  · rw [hq1]; apply key <;> omega

theorem scaledDigits_near (prec : Nat) (x : F64) :
    2 * |(scaledDigits prec x : Int) * 2 ^ (-x.exp).toNat
          - (x.mant : Int) * 2 ^ x.exp.toNat * 10 ^ prec| ≤ 2 ^ (-x.exp).toNat := by
  unfold scaledDigits
  split_ifs with h
  · have h0 : (-x.exp).toNat = 0 := by omega
    rw [h0]
    push_cast
    simp
  · have h0 : x.exp.toNat = 0 := by omega
    rw [h0]
    have := roundHalfEven_near (x.mant * 10 ^ prec) (2 ^ (-x.exp).toNat) (by positivity)
    push_cast at this ⊢
    simpa using this

theorem formatFixed_isFixedRendering (prec : Nat) (hp : 0 < prec) (x : F64) :
    IsFixedRendering prec x (formatFixed prec x) := by
  have hpow : 0 < 10 ^ prec := by positivity
  obtain ⟨hne, hdig, hval, hlead⟩ := natDigits_spec (scaledDigits prec x / 10 ^ prec)
  obtain ⟨flen, fdig, fval⟩ :=
    zeroPad_spec (scaledDigits prec x % 10 ^ prec) prec hp (Nat.mod_lt _ hpow)
  refine ⟨natDigits (scaledDigits prec x / 10 ^ prec),
    zeroPad prec (natDigits (scaledDigits prec x % 10 ^ prec)), ?_, hne, hdig, hlead, flen, fdig, ?_⟩
  · simp [formatFixed, Nat.pos_iff_ne_zero.1 hp]
  · rw [digitsVal_append, hval, fval, flen, Nat.div_add_mod' ]
    exact scaledDigits_near prec x
theorem leapYear_eq_isLeap (y : Nat) : leapYear y = isLeap y := by
  unfold leapYear isLeap
  by_cases h4 : y % 4 = 0 <;> by_cases h100 : y % 100 = 0 <;> by_cases h400 : y % 400 = 0 <;>
    simp [h4, h100, h400] <;> omega

theorem daysBeforeYear_closed (y : Nat) :
    daysBeforeYear y + (y + 99) / 100 = 365 * y + (y + 3) / 4 + (y + 399) / 400 := by
  induction y with
  | zero => simp [daysBeforeYear]
  | succ y ih =>
    unfold daysBeforeYear leapYear
    by_cases h4 : y % 4 = 0 <;> by_cases h100 : y % 100 = 0 <;> by_cases h400 : y % 400 = 0 <;>
      simp [h4, h100, h400] <;> omega

theorem daysSinceEpoch_mod (y : Nat) :
    (daysSinceEpoch y + 1) % 7 = (6 + daysBeforeYear y) % 7 := by
  have h := daysBeforeYear_closed y
  have hq : (y + 292277022399) / 400 = 730692555 + (y + 399) / 400 := by omega
  have hr : y + 292277022399 - 400 * ((y + 292277022399) / 400) = (y + 399) % 400 := by omega
  unfold daysSinceEpoch absoluteZeroYearNeg
  simp only
  rw [hr, hq]
  generalize hrr : (y + 399) % 400 = r
  generalize hqq : (y + 399) / 400 = q at h
  have hy : y + 399 = 400 * q + r := by omega
  have hr400 : r < 400 := by omega
  have hs : r - 100 * (r / 100) = r % 100 := by omega
  rw [hs]
  have hc : r % 100 - 4 * (r % 100 / 4) = r % 100 % 4 := by omega
  rw [hc]
  generalize ha : r / 100 = a
  generalize hb : r % 100 / 4 = b
  generalize hcc : r % 100 % 4 = c
  have hrabc : r = 100 * a + 4 * b + c := by omega
  have hc4 : c < 4 := by omega
  have hb25 : b < 25 := by omega
  have e4 : (y + 3) / 4 + 99 = 100 * q + 25 * a + b := by omega
  have e100 : (y + 99) / 100 + 3 = 4 * q + a := by omega
  omega

theorem daysBefore_eq_daysInMonths (y m : Nat) (h1 : 1 ≤ m) (h12 : m ≤ 12) :
    daysBefore (m - 1) + (if (isLeap y && decide (3 ≤ m)) = true then 1 else 0)
      = daysInMonths y (m - 1) := by
  rw [← leapYear_eq_isLeap]
  interval_cases m <;> cases hl : leapYear y <;>
    simp [daysBefore, daysInMonths, monthLength, hl]

theorem daysIn_eq_monthLength (y m : Nat) (h1 : 1 ≤ m) (h12 : m ≤ 12) :
    daysIn m y = monthLength y m := by
  rw [daysIn, ← leapYear_eq_isLeap]
  interval_cases m <;> cases hl : leapYear y <;> simp [daysBefore, monthLength, hl]

theorem absWeekday_Date (c : Civil) (hm1 : 1 ≤ c.month) (hm : c.month ≤ 12)
    (hh : c.hour < 24) (hmin : c.min < 60) :
    absWeekday (Date c).abs = dayOfWeek c.year c.month c.day := by
  have h1 := daysSinceEpoch_mod c.year
  have h2 := daysBefore_eq_daysInMonths c.year c.month hm1 hm
  unfold absWeekday Date dayOfWeek
  simp only
  rw [← h2]
  omega

theorem clock_Date (c : Civil) (hh : c.hour < 24) (hmin : c.min < 60) :
    (Date c).abs % 86400 / 3600 = c.hour ∧ (Date c).abs % 86400 % 3600 / 60 = c.min := by
  unfold Date
  simp only
  omega
theorem matchesPattern_shape (t : String) (h : matchesPattern t = true) :
    ∃ y1 y2 y3 y4 m1 m2 d1 d2 h1 h2 n1 n2 : Char,
      t.toList = [y1, y2, y3, y4, '-', m1, m2, '-', d1, d2, 'T', h1, h2, ':', n1, n2]
      ∧ isDigitChar y1 = true ∧ isDigitChar y2 = true ∧ isDigitChar y3 = true
      ∧ isDigitChar y4 = true ∧ isDigitChar m1 = true ∧ isDigitChar m2 = true
      ∧ isDigitChar d1 = true ∧ isDigitChar d2 = true ∧ isDigitChar h1 = true
      ∧ isDigitChar h2 = true ∧ isDigitChar n1 = true ∧ isDigitChar n2 = true := by
  unfold matchesPattern at h
  split at h
  · rename_i y1 y2 y3 y4 s1 m1 m2 s2 d1 d2 s3 h1 h2 s4 n1 n2 heq
    simp only [Bool.and_eq_true, beq_iff_eq] at h
    obtain ⟨⟨⟨⟨⟨⟨⟨⟨⟨⟨⟨⟨⟨⟨⟨a1, a2⟩, a3⟩, a4⟩, a5⟩, a6⟩, a7⟩, a8⟩, a9⟩, a10⟩, a11⟩, a12⟩, a13⟩, a14⟩,
      a15⟩, a16⟩ := h
    subst a5 a8 a11 a14
    exact ⟨y1, y2, y3, y4, m1, m2, d1, d2, h1, h2, n1, n2, heq, a1, a2, a3, a4, a6, a7, a9, a10,
      a12, a13, a15, a16⟩
  · exact absurd h (by simp)

theorem parseCivil_of_wellFormed (t : String) (h : wellFormedTimestamp t = true) :
    parseCivil t.toList = some (Civil.mk (fieldOf t 0 4) (fieldOf t 5 2) (fieldOf t 8 2)
      (fieldOf t 11 2) (fieldOf t 14 2)) := by
  unfold wellFormedTimestamp at h
  simp only [Bool.and_eq_true, decide_eq_true_eq] at h
  obtain ⟨⟨⟨⟨⟨⟨hp, hm1⟩, hm12⟩, hd1⟩, hdl⟩, hh⟩, hmin⟩ := h
  obtain ⟨y1, y2, y3, y4, m1, m2, d1, d2, h1, h2, n1, n2, heq, a1, a2, a3, a4, a6, a7, a9, a10,
      a12, a13, a15, a16⟩ := matchesPattern_shape t hp
  have hdata : t.data = [y1, y2, y3, y4, '-', m1, m2, '-', d1, d2, 'T', h1, h2, ':', n1, n2] := heq
  have hmonth : fieldOf t 5 2 = digitVal m1 * 10 + digitVal m2 := by
    simp [fieldOf, hdata, digitsVal]
  have hday : fieldOf t 8 2 = digitVal d1 * 10 + digitVal d2 := by
    simp [fieldOf, hdata, digitsVal]
  have hyear : fieldOf t 0 4
      = digitVal y1 * 1000 + digitVal y2 * 100 + digitVal y3 * 10 + digitVal y4 := by
    simp [fieldOf, hdata, digitsVal]; ring
  have hhour : fieldOf t 11 2 = digitVal h1 * 10 + digitVal h2 := by
    simp [fieldOf, hdata, digitsVal]
  have hminute : fieldOf t 14 2 = digitVal n1 * 10 + digitVal n2 := by
    simp [fieldOf, hdata, digitsVal]
  rw [← daysIn_eq_monthLength _ _ hm1 hm12] at hdl
  rw [hmonth] at hm1 hm12 hdl
  rw [hday] at hd1 hdl
  rw [hyear] at hdl
  rw [hhour] at hh
  rw [hminute] at hmin
  rw [hmonth, hday, hyear, hhour, hminute, heq]
  simp only [parseCivil, getLongYear, skipLit, getnum, a1, a2, a3, a4, a6, a7, a9, a10, a12, a13,
    a15, a16, Bool.and_self, if_true, Bool.not_true, Bool.false_eq_true, if_false]
  have c1 : ¬ (digitVal m1 * 10 + digitVal m2 < 1) := by omega
  have c2 : ¬ (12 < digitVal m1 * 10 + digitVal m2) := by omega
  have c3 : ¬ (24 ≤ digitVal h1 * 10 + digitVal h2) := by omega
  have c4 : ¬ (60 ≤ digitVal n1 * 10 + digitVal n2) := by omega
  have c5 : ¬ (digitVal d1 * 10 + digitVal d2 < 1) := by omega
  have c6 : ¬ (daysIn (digitVal m1 * 10 + digitVal m2)
      (digitVal y1 * 1000 + digitVal y2 * 100 + digitVal y3 * 10 + digitVal y4)
        < digitVal d1 * 10 + digitVal d2) := by omega
  simp [c1, c2, c3, c4, c5, c6]
theorem digit_cases (c : Char) (h : isDigitChar c = true) :
    c ∈ ['0', '1', '2', '3', '4', '5', '6', '7', '8', '9'] := by
  rw [isDigitChar_iff] at h
  obtain ⟨n, hn⟩ : ∃ n, c.toNat = n := ⟨_, rfl⟩
  have hc : c = Char.ofNat n := by rw [← hn, Char.ofNat_toNat]
  rw [hn] at h
  obtain ⟨h1, h2⟩ := h
  subst hc
  interval_cases n <;> decide

theorem appendInt_two_digits (a b : Char) (ha : isDigitChar a = true) (hb : isDigitChar b = true) :
    appendInt (digitVal a * 10 + digitVal b) 2 = [a, b] := by
  have key : ∀ a ∈ ['0', '1', '2', '3', '4', '5', '6', '7', '8', '9'],
      ∀ b ∈ ['0', '1', '2', '3', '4', '5', '6', '7', '8', '9'],
      appendInt (digitVal a * 10 + digitVal b) 2 = [a, b] := by decide
  exact key a (digit_cases a ha) b (digit_cases b hb)

theorem dayName_take (wd : Nat) (h : wd < 7) :
    (longDayName wd).toList.take 3 = (weekdayAbbrev wd).toList := by
  interval_cases wd <;> decide

theorem dayOfWeek_lt (y m d : Nat) : dayOfWeek y m d < 7 := by
  unfold dayOfWeek; omega

theorem timeFormat_of_wellFormed (t : String) (h : wellFormedTimestamp t = true) :
    ∃ date, timeParse t = some date ∧ timeFormat date = expectedDate t := by
  have hparse := parseCivil_of_wellFormed t h
  refine ⟨_, by rw [timeParse, hparse]; rfl, ?_⟩
  unfold wellFormedTimestamp at h
  simp only [Bool.and_eq_true, decide_eq_true_eq] at h
  obtain ⟨⟨⟨⟨⟨⟨hp, hm1⟩, hm12⟩, hd1⟩, hdl⟩, hh⟩, hmin⟩ := h
  obtain ⟨y1, y2, y3, y4, m1, m2, d1, d2, h1, h2, n1, n2, heq, a1, a2, a3, a4, a6, a7, a9, a10,
      a12, a13, a15, a16⟩ := matchesPattern_shape t hp
  have hdata : t.data = [y1, y2, y3, y4, '-', m1, m2, '-', d1, d2, 'T', h1, h2, ':', n1, n2] := heq
  have hhour : fieldOf t 11 2 = digitVal h1 * 10 + digitVal h2 := by
    simp [fieldOf, hdata, digitsVal]
  have hminute : fieldOf t 14 2 = digitVal n1 * 10 + digitVal n2 := by
    simp [fieldOf, hdata, digitsVal]
  generalize hc : Civil.mk (fieldOf t 0 4) (fieldOf t 5 2) (fieldOf t 8 2)
      (fieldOf t 11 2) (fieldOf t 14 2) = c
  have hcy : c.year = fieldOf t 0 4 := by rw [← hc]
  have hcm : c.month = fieldOf t 5 2 := by rw [← hc]
  have hcd : c.day = fieldOf t 8 2 := by rw [← hc]
  have hch : c.hour = fieldOf t 11 2 := by rw [← hc]
  have hcn : c.min = fieldOf t 14 2 := by rw [← hc]
  have hwd := absWeekday_Date c (by omega) (by omega) (by omega) (by omega)
  have hclock := clock_Date c (by omega) (by omega)
  unfold timeFormat expectedDate
  simp only
  rw [hwd, hclock.1, hclock.2, hcy, hcm, hcd, hch, hcn, hhour, hminute,
    appendInt_two_digits h1 h2 a12 a13, appendInt_two_digits n1 n2 a15 a16,
    dayName_take _ (dayOfWeek_lt _ _ _), heq]
  apply String.ext
  simp
theorem rangeTimes_returned (city : String) (temps : List F64) :
    ∀ (times : List String) (i : Nat) (acc : List Forecast) (wd : WeatherDisplay),
      rangeTimes city temps times i acc = Outcome.returned (wd, none) →
      wd.City = city ∧ wd.Forecasts.length = acc.length + times.length
        ∧ (∀ (j : Nat) (f : Forecast), acc[j]? = some f → wd.Forecasts[j]? = some f)
        ∧ ∀ (j : Nat) (t : String), times[j]? = some t → ∃ date x, timeParse t = some date ∧ temps[i + j]? = some x
            ∧ wd.Forecasts[acc.length + j]?
                = some (Forecast.mk (timeFormat date) (sprintfTemperature x)) := by
  intro times
  induction times with
  | nil =>
    intro i acc wd h
    simp only [rangeTimes, Outcome.returned.injEq, Prod.mk.injEq, and_true] at h
    subst h
    simp
  | cons t ts ih =>
    intro i acc wd h
    unfold rangeTimes at h
    cases hp : timeParse t with
    | none => simp [hp] at h
    | some date =>
      cases hx : temps[i]? with
      | none => simp [hp, hx] at h
      | some x =>
        simp only [hp, hx] at h
        obtain ⟨hc, hl, hpre, hidx⟩ := ih (i + 1) _ wd h
        refine ⟨hc, ?_, ?_, ?_⟩
        · simp only [List.length_append, List.length_cons, List.length_nil] at hl ⊢
          omega
        · intro j f hj
          apply hpre
          have hlt : j < acc.length := by
            by_contra hge
            rw [List.getElem?_eq_none (by omega)] at hj
            exact absurd hj (by simp)
          rw [List.getElem?_append_left hlt]
          exact hj
        · intro j u hj
          cases j with
          | zero =>
            simp only [List.getElem?_cons_zero, Option.some.injEq] at hj
            subst hj
            refine ⟨date, x, hp, by simpa using hx, ?_⟩
            apply hpre
            simp
          | succ k =>
            simp only [List.getElem?_cons_succ] at hj
            obtain ⟨d2, x2, h1, h2, h3⟩ := hidx k u hj
            refine ⟨d2, x2, h1, ?_, ?_⟩
            · rw [← h2]; congr 1; omega
            · rw [← h3]; congr 1
              simp only [List.length_append, List.length_cons, List.length_nil]; omega

theorem rangeTimes_succeeds (city : String) (temps : List F64) :
    ∀ (times : List String) (i : Nat) (acc : List Forecast),
      (∀ t ∈ times, (timeParse t).isSome = true) → i + times.length ≤ temps.length →
      ∃ wd, rangeTimes city temps times i acc = Outcome.returned (wd, none) := by
  intro times
  induction times with
  | nil => intro i acc _ _; exact ⟨_, rfl⟩
  | cons t ts ih =>
    intro i acc hall hlen
    simp only [List.length_cons] at hlen
    obtain ⟨date, hd⟩ := Option.isSome_iff_exists.1 (hall t (by simp))
    have hlt : i < temps.length := by omega
    unfold rangeTimes
    simp only [hd, List.getElem?_eq_getElem hlt]
    exact ih (i + 1) _ (fun u hu => hall u (by simp [hu])) (by omega)

theorem rangeTimes_no_panic (city : String) (temps : List F64) :
    ∀ (times : List String) (i : Nat) (acc : List Forecast),
      i + times.length ≤ temps.length →
      ∀ p, rangeTimes city temps times i acc ≠ Outcome.panicked p := by
  intro times
  induction times with
  | nil => intro i acc _ p; simp [rangeTimes]
  | cons t ts ih =>
    intro i acc hlen p
    simp only [List.length_cons] at hlen
    have hlt : i < temps.length := by omega
    unfold rangeTimes
    cases hp : timeParse t with
    | none => simp
    | some date =>
      simp only [List.getElem?_eq_getElem hlt]
      exact ih (i + 1) _ (by omega) p

theorem first_rejected (times : List String) (h : ∃ t ∈ times, timeParse t = none) :
    ∃ pre t post, times = pre ++ t :: post ∧ timeParse t = none
      ∧ ∀ u ∈ pre, (timeParse u).isSome = true := by
  induction times with
  | nil => obtain ⟨t, ht, _⟩ := h; simp at ht
  | cons a rest ih =>
    cases ha : timeParse a with
    | none => exact ⟨[], a, rest, rfl, ha, by simp⟩
    | some d =>
      obtain ⟨t, ht, hnone⟩ := h
      have hin : t ∈ rest := by
        rcases List.mem_cons.1 ht with h1 | h1
        · subst h1; rw [ha] at hnone; exact absurd hnone (by simp)
        · exact h1
      obtain ⟨pre, t2, post, h1, h2, h3⟩ := ih ⟨t, hin, hnone⟩
      refine ⟨a :: pre, t2, post, by simp [h1], h2, ?_⟩
      intro u hu
      rcases List.mem_cons.1 hu with h4 | h4
      · subst h4; simp [ha]
      · exact h3 u h4
theorem extractWeatherData_of_decoded (city raw : String) (wr : WeatherResponse)
    (hdec : unmarshalWeatherResponse raw = Except.ok wr) :
    extractWeatherData city raw
      = rangeTimes city wr.Hourly.Temperature2m wr.Hourly.Time 0 [] := by
  unfold extractWeatherData
  rw [hdec]

theorem getLatLong_of_decoded (net : Net) (city text : String) (response : GeoResponse)
    (hget : net.respond (geoEndpoint city) = Except.ok (Except.ok text))
    (hdec : decodeGeoResponse text = Except.ok response) :
    getLatLong net city
      = (if response.Results.length < 1 then (none, some (Error.New "no results found"))
         else (response.Results[0]?, none),
        { net with requests := net.requests ++ [geoEndpoint city] }) := by
  unfold getLatLong Net.Get
  simp only [hget, hdec]
  split <;> rfl

theorem getWeather_net (net : Net) (latLong : LatLong) :
    (getWeather net latLong).2
      = { net with requests := net.requests ++ [weatherEndpoint latLong] } := by
  unfold getWeather Net.Get
  generalize net.respond (weatherEndpoint latLong) = r
  rcases r with e | e | b <;> rfl

theorem getLatLong_net (net : Net) (city : String) :
    (getLatLong net city).2 = { net with requests := net.requests ++ [geoEndpoint city] } := by
  unfold getLatLong Net.Get
  generalize net.respond (geoEndpoint city) = r
  rcases r with e | e | b
  · rfl
  · rfl
  · simp only
    cases decodeGeoResponse b with
    | error e => rfl
    | ok response =>
      simp only
      split <;> rfl
theorem weatherHandler_eq_pipeline :
    weatherHandler
      = weatherPipeline (fun wd => Reply.HTML StatusOK "weather.html" (some wd)) := rfl

theorem weatherJSONHandler_eq_pipeline :
    weatherJSONHandler = weatherPipeline (fun wd => Reply.JSON StatusOK (H.OK wd)) := rfl

theorem weatherPipeline_contract (render : WeatherDisplay → Reply)
    (hinj : ∀ a b, render a = render b → a = b)
    (hne : ∀ wd err, render wd ≠ Reply.JSON StatusInternalServerError (H.error err)) :
    PipelineContract (weatherPipeline render) render := by
  intro net city
  have hn1 := getLatLong_net net city
  unfold weatherPipeline
  rcases hg : getLatLong net city with ⟨⟨p, e⟩, net1⟩
  rw [hg] at hn1
  simp only at hn1
  cases e with
  | some err =>
    simp only
    refine ⟨?_, ?_, ?_, ?_⟩
    · intro wd
      constructor
      · intro h
        simp only [Outcome.returned.injEq] at h
        exact absurd h.symm (hne wd err)
      · rintro ⟨ll, w, h1, _⟩
        simp at h1
    · intro p2 err2 h
      simp only [Prod.mk.injEq, Option.some.injEq] at h
      obtain ⟨_, rfl⟩ := h
      exact ⟨rfl, by rw [hn1]⟩
    · intro ll w err2 h
      simp at h
    · intro ll w wd err2 h
      simp at h
  | none =>
    cases p with
    | none =>
      simp only
      refine ⟨?_, ?_, ?_, ?_⟩
      · intro wd
        constructor
        · intro h; simp at h
        · rintro ⟨ll, w, h1, _⟩
          simp at h1
      · intro p2 err2 h; simp at h
      · intro ll w err2 h; simp at h
      · intro ll w wd err2 h; simp at h
    | some ll =>
      simp only
      have hn2 := getWeather_net net1 ll
      rcases hw : getWeather net1 ll with ⟨⟨w, e2⟩, net2⟩
      rw [hw] at hn2
      simp only at hn2
      cases e2 with
      | some err =>
        simp only
        refine ⟨?_, ?_, ?_, ?_⟩
        · intro wd
          constructor
          · intro h
            simp only [Outcome.returned.injEq] at h
            exact absurd h.symm (hne wd err)
          · rintro ⟨ll2, w2, h1, h2, _⟩
            simp only [Prod.mk.injEq, Option.some.injEq, and_true] at h1
            subst h1
            rw [hw] at h2
            simp at h2
        · intro p2 err2 h; simp at h
        · intro ll2 w2 err2 h1 h2
          simp only [Prod.mk.injEq, Option.some.injEq, and_true] at h1
          subst h1
          rw [hw] at h2 ⊢
          simp only [Prod.mk.injEq, Option.some.injEq] at h2
          obtain ⟨_, rfl⟩ := h2
          refine ⟨rfl, ?_⟩
          rw [hn2, hn1]
          simp
        · intro ll2 w2 wd err2 h1 h2
          simp only [Prod.mk.injEq, Option.some.injEq, and_true] at h1
          subst h1
          rw [hw] at h2
          simp at h2
      | none =>
        simp only
        refine ⟨?_, ?_, ?_, ?_⟩
        · intro wd
          constructor
          · intro h
            refine ⟨ll, w, rfl, by rw [hw], ?_⟩
            rcases hx : extractWeatherData city w with ⟨wd2, _ | err⟩ | pn
            · rw [hx] at h
              simp only [Outcome.returned.injEq] at h
              rw [hinj _ _ h]
            · rw [hx] at h
              simp only [Outcome.returned.injEq] at h
              exact absurd h.symm (hne wd err)
            · rw [hx] at h
              simp at h
          · rintro ⟨ll2, w2, h1, h2, h3⟩
            simp only [Prod.mk.injEq, Option.some.injEq, and_true] at h1
            subst h1
            rw [hw] at h2
            simp only [Prod.mk.injEq, and_true] at h2
            subst h2
            rw [h3]
        · intro p2 err2 h; simp at h
        · intro ll2 w2 err2 h1 h2
          simp only [Prod.mk.injEq, Option.some.injEq, and_true] at h1
          subst h1
          rw [hw] at h2
          simp at h2
        · intro ll2 w2 wd err2 h1 h2 h3
          simp only [Prod.mk.injEq, Option.some.injEq, and_true] at h1
          subst h1
          rw [hw] at h2
          simp only [Prod.mk.injEq, and_true] at h2
          subst h2
          rw [h3]

/-! ### Adequacy of the fuel in the JSON parser and in `bitLen` -/

theorem skipSpace_length_le : ∀ cs : List Char, (skipSpace cs).length ≤ cs.length
  | [] => by simp [skipSpace]
  | c :: cs => by
    unfold skipSpace
    split
    · have := skipSpace_length_le cs
      simp only [List.length_cons]
      omega
    · exact Nat.le_refl _

theorem scanString_length_lt : ∀ (n : Nat) (cs : List Char) (acc units : List Nat)
    (rest : List Char), cs.length ≤ n → scanString cs acc = some (units, rest) →
    rest.length < cs.length := by
  intro n
  induction n with
  | zero =>
    intro cs acc units rest hn h
    cases cs with
    | nil => simp [scanString] at h
    | cons c cs => simp at hn
  | succ n ih =>
    intro cs acc units rest hn h
    cases cs with
    | nil => simp [scanString] at h
    | cons c cs =>
      simp only [List.length_cons] at hn ⊢
      unfold scanString at h
      split at h
      · simp only [Option.some.injEq, Prod.mk.injEq] at h
        rw [← h.2]; omega
      · split at h
        · split at h
          · simp at h
          · rename_i e cs1
            simp only [List.length_cons] at hn ⊢
            split at h
            · split at h
              · rename_i h1 h2 h3 h4 cs2
                simp only [List.length_cons] at hn ⊢
                split at h
                · have := ih cs2 _ units rest (by omega) h
                  omega
                · simp at h
              · simp at h
            · split at h
              · have := ih cs1 _ units rest (by omega) h
                omega
              · simp at h
        · split at h
          · simp at h
          · have := ih cs _ units rest (by omega) h
            omega
theorem spanDigits_length_le : ∀ cs : List Char, (spanDigits cs).2.length ≤ cs.length
  | [] => by simp [spanDigits]
  | c :: cs => by
    unfold spanDigits
    split
    · have := spanDigits_length_le cs
      simp only [List.length_cons]
      omega
    · exact Nat.le_refl _

theorem scanInt_length_lt (cs ip rest : List Char) (h : scanInt cs = some (ip, rest)) :
    rest.length < cs.length := by
  unfold scanInt at h
  split at h
  · simp at h
  · rename_i c r
    have := spanDigits_length_le r
    split at h
    · simp only [Option.some.injEq, Prod.mk.injEq] at h
      rw [← h.2]; simp
    · split at h
      · simp only [Option.some.injEq, Prod.mk.injEq] at h
        rw [← h.2]; simp only [List.length_cons]; omega
      · simp at h

theorem scanFrac_length_le (cs fp rest : List Char) (h : scanFrac cs = some (fp, rest)) :
    rest.length ≤ cs.length := by
  unfold scanFrac at h
  split at h
  · rename_i c r
    have := spanDigits_length_le r
    split at h
    · split at h
      · simp at h
      · simp only [Option.some.injEq] at h
        rw [h] at this
        simp only [List.length_cons] at this ⊢; omega
    · simp only [Option.some.injEq, Prod.mk.injEq] at h
      rw [← h.2]
  · simp only [Option.some.injEq, Prod.mk.injEq] at h
    rw [← h.2]

theorem scanExp_length_le (cs rest : List Char) (e : Int) (h : scanExp cs = some (e, rest)) :
    rest.length ≤ cs.length := by
  unfold scanExp at h
  split at h
  · rename_i c r
    split at h
    · split at h
      · rename_i s r1
        have h1 := spanDigits_length_le r1
        have h2 := spanDigits_length_le (s :: r1)
        simp only [List.length_cons] at h2 ⊢
        split at h
        · split at h
          · simp at h
          · simp only [Option.some.injEq, Prod.mk.injEq] at h
            rw [← h.2]; omega
        · split at h
          · simp at h
          · simp only [Option.some.injEq, Prod.mk.injEq] at h
            rw [← h.2]; omega
      · simp at h
    · simp only [Option.some.injEq, Prod.mk.injEq] at h
      rw [← h.2]
  · simp only [Option.some.injEq, Prod.mk.injEq] at h
    rw [← h.2]

theorem scanNumber_length_lt (cs rest : List Char) (v : JSON)
    (h : scanNumber cs = some (v, rest)) : rest.length < cs.length := by
  unfold scanNumber at h
  simp only at h
  split at h
  · simp at h
  · rename_i ip r1 hi
    split at h
    · simp at h
    · rename_i fp r2 hf
      split at h
      · simp at h
      · rename_i e r3 he
        simp only [Option.some.injEq, Prod.mk.injEq] at h
        rw [← h.2]
        have a1 := scanInt_length_lt _ _ _ hi
        have a2 := scanFrac_length_le _ _ _ hf
        have a3 := scanExp_length_le _ _ _ he
        have a4 : ∀ b : Bool, (if b = true then cs.tail else cs).length ≤ cs.length := by
          intro b
          split
          · simp
          · exact Nat.le_refl _
        have a5 := a4 (decide (cs.head? = some '-'))
        simp only [decide_eq_true_eq] at a5
        omega

theorem scanWord_length_le (word cs rest : List Char) (h : scanWord word cs = some rest) :
    rest.length ≤ cs.length := by
  unfold scanWord at h
  split at h
  · simp only [Option.some.injEq] at h
    rw [← h]; simp
  · simp at h

theorem parseElems_length_lt (pv : List Char → Option (JSON × List Char))
    (hpv : ∀ cs v rest, pv cs = some (v, rest) → rest.length < cs.length) :
    ∀ (n : Nat) (cs : List Char) (acc : List JSON) (v : JSON) (rest : List Char),
      parseElems pv n cs acc = some (v, rest) → rest.length < cs.length := by
  intro n
  induction n with
  | zero => intro cs acc v rest h; simp [parseElems] at h
  | succ n ih =>
    intro cs acc v rest h
    unfold parseElems at h
    split at h
    · simp at h
    · rename_i x r hx
      have h1 := hpv _ _ _ hx
      have h2 := skipSpace_length_le r
      split at h
      · simp at h
      · rename_i c r1 hs
        rw [hs] at h2
        simp only [List.length_cons] at h2
        split at h
        · have := ih _ _ _ _ h
          omega
        · split at h
          · simp only [Option.some.injEq, Prod.mk.injEq] at h
            rw [← h.2]; omega
          · simp at h

theorem parseMembers_length_lt (pv : List Char → Option (JSON × List Char))
    (hpv : ∀ cs v rest, pv cs = some (v, rest) → rest.length < cs.length) :
    ∀ (n : Nat) (cs : List Char) (acc : List (String × JSON)) (v : JSON) (rest : List Char),
      parseMembers pv n cs acc = some (v, rest) → rest.length < cs.length := by
  intro n
  induction n with
  | zero => intro cs acc v rest h; simp [parseMembers] at h
  | succ n ih =>
    intro cs acc v rest h
    unfold parseMembers at h
    have h0 := skipSpace_length_le cs
    split at h
    · simp at h
    · rename_i q r0 hs0
      rw [hs0] at h0
      simp only [List.length_cons] at h0
      split at h
      · simp at h
      · split at h
        · simp at h
        · rename_i units r1 hstr
          have h1 := scanString_length_lt _ _ _ _ _ (Nat.le_refl _) hstr
          have h2 := skipSpace_length_le r1
          split at h
          · simp at h
          · rename_i colon r2 hs2
            rw [hs2] at h2
            simp only [List.length_cons] at h2
            split at h
            · simp at h
            · split at h
              · simp at h
              · rename_i x r3 hx
                have h3 := hpv _ _ _ hx
                have h4 := skipSpace_length_le r3
                split at h
                · simp at h
                · rename_i c r4 hs4
                  rw [hs4] at h4
                  simp only [List.length_cons] at h4
                  split at h
                  · have := ih _ _ _ _ h
                    omega
                  · split at h
                    · simp only [Option.some.injEq, Prod.mk.injEq] at h
                      rw [← h.2]; omega
                    · simp at h

theorem parseValue_length_lt : ∀ (room : Nat) (cs : List Char) (v : JSON) (rest : List Char),
    parseValue room cs = some (v, rest) → rest.length < cs.length := by
  intro room
  induction room with
  | zero => intro cs v rest h; simp [parseValue] at h
  | succ room ih =>
    intro cs v rest h
    unfold parseValue at h
    have h0 := skipSpace_length_le cs
    split at h
    · simp at h
    · rename_i c r hs
      rw [hs] at h0
      simp only [List.length_cons] at h0
      have hsp := skipSpace_length_le r
      split at h
      · split at h
        · simp at h
        · split at h
          · simp only [Option.some.injEq, Prod.mk.injEq] at h
            rw [← h.2]; simp only [List.length_tail]; omega
          · have := parseMembers_length_lt _ (ih) _ _ _ _ _ h
            omega
      · split at h
        · split at h
          · simp at h
          · split at h
            · simp only [Option.some.injEq, Prod.mk.injEq] at h
              rw [← h.2]; simp only [List.length_tail]; omega
            · have := parseElems_length_lt _ (ih) _ _ _ _ _ h
              omega
        · split at h
          · split at h
            · simp at h
            · rename_i units r1 hstr
              have := scanString_length_lt _ _ _ _ _ (Nat.le_refl _) hstr
              simp only [Option.some.injEq, Prod.mk.injEq] at h
              rw [← h.2]; omega
          · have word : ∀ (w : List Char) (j : JSON),
                (scanWord w r).map (fun x => (j, x)) = some (v, rest) →
                rest.length < cs.length := by
              intro w j hw
              cases hsw : scanWord w r with
              | none => rw [hsw] at hw; simp at hw
              | some x =>
                rw [hsw] at hw
                simp only [Option.map_some', Option.some.injEq, Prod.mk.injEq] at hw
                have := scanWord_length_le _ _ _ hsw
                rw [← hw.2]; omega
            split at h
            · exact word _ _ h
            · split at h
              · exact word _ _ h
              · split at h
                · exact word _ _ h
                · have := scanNumber_length_lt _ _ _ h
                  simp only [List.length_cons] at this
                  omega
theorem parseElems_fuel (pv : List Char → Option (JSON × List Char))
    (hpv : ∀ cs v rest, pv cs = some (v, rest) → rest.length < cs.length) :
    ∀ (n m : Nat) (cs : List Char) (acc : List JSON), cs.length < n → cs.length < m →
      parseElems pv n cs acc = parseElems pv m cs acc := by
  intro n
  induction n with
  | zero => intro m cs acc h; omega
  | succ n ih =>
    intro m cs acc hn hm
    cases m with
    | zero => omega
    | succ m =>
      unfold parseElems
      cases hx : pv cs with
      | none => rfl
      | some x =>
        obtain ⟨v, r⟩ := x
        have h1 := hpv _ _ _ hx
        have h2 := skipSpace_length_le r
        simp only
        cases hs : skipSpace r with
        | nil => rfl
        | cons c r1 =>
          rw [hs] at h2
          simp only [List.length_cons] at h2
          simp only
          split
          · exact ih m r1 _ (by omega) (by omega)
          · rfl

theorem parseMembers_fuel (pv : List Char → Option (JSON × List Char))
    (hpv : ∀ cs v rest, pv cs = some (v, rest) → rest.length < cs.length) :
    ∀ (n m : Nat) (cs : List Char) (acc : List (String × JSON)), cs.length < n →
      cs.length < m → parseMembers pv n cs acc = parseMembers pv m cs acc := by
  intro n
  induction n with
  | zero => intro m cs acc h; omega
  | succ n ih =>
    intro m cs acc hn hm
    cases m with
    | zero => omega
    | succ m =>
      unfold parseMembers
      have h0 := skipSpace_length_le cs
      cases hs0 : skipSpace cs with
      | nil => rfl
      | cons q r0 =>
        rw [hs0] at h0
        simp only [List.length_cons] at h0
        simp only
        split
        · rfl
        · cases hstr : scanString r0 [] with
          | none => rfl
          | some x =>
            obtain ⟨units, r1⟩ := x
            have h1 := scanString_length_lt _ _ _ _ _ (Nat.le_refl _) hstr
            have h2 := skipSpace_length_le r1
            simp only
            cases hs2 : skipSpace r1 with
            | nil => rfl
            | cons colon r2 =>
              rw [hs2] at h2
              simp only [List.length_cons] at h2
              simp only
              split
              · rfl
              · cases hx : pv r2 with
                | none => rfl
                | some y =>
                  obtain ⟨v, r3⟩ := y
                  have h3 := hpv _ _ _ hx
                  have h4 := skipSpace_length_le r3
                  simp only
                  cases hs4 : skipSpace r3 with
                  | nil => rfl
                  | cons c r4 =>
                    rw [hs4] at h4
                    simp only [List.length_cons] at h4
                    simp only
                    split
                    · exact ih m r4 _ (by omega) (by omega)
                    · rfl

/-- The loops over array elements and object members never stop for lack of fuel: with
any bound above the length of the input they give what `parseValue` computes with its
own bound, so the only limit of the parser is the nesting depth. -/
theorem parseValue_loops_fuel (room n : Nat) (rest : List Char) (h : rest.length < n) :
    parseElems (parseValue room) n rest [] = parseElems (parseValue room) (rest.length + 1) rest []
      ∧ parseMembers (parseValue room) n rest []
          = parseMembers (parseValue room) (rest.length + 1) rest [] :=
  ⟨parseElems_fuel _ (parseValue_length_lt room) _ _ _ _ h (Nat.lt_succ_self _),
    parseMembers_fuel _ (parseValue_length_lt room) _ _ _ _ h (Nat.lt_succ_self _)⟩

theorem bitLenFuel_spec : ∀ (fuel n : Nat), n ≤ fuel →
    n < 2 ^ bitLenFuel fuel n ∧ (n ≠ 0 → 2 ^ (bitLenFuel fuel n - 1) ≤ n) := by
  intro fuel
  induction fuel with
  | zero => intro n h; simp [bitLenFuel]; omega
  | succ fuel ih =>
    intro n h
    unfold bitLenFuel
    split
    · rename_i h0; simp [h0]
    · rename_i h0
      obtain ⟨h1, h2⟩ := ih (n / 2) (by omega)
      refine ⟨?_, fun _ => ?_⟩
      · rw [Nat.add_comm, pow_succ]; omega
      · simp only [Nat.add_sub_cancel_left]
        by_cases hz : n / 2 = 0
        · have : bitLenFuel fuel (n / 2) = 0 := by
            cases fuel with
            | zero => rfl
            | succ f => simp [bitLenFuel, hz]
          rw [this]; simp; omega
        · have h3 := h2 hz
          have hpos : 0 < bitLenFuel fuel (n / 2) := by
            by_contra hc
            have : bitLenFuel fuel (n / 2) = 0 := by omega
            rw [this] at h1; simp at h1; omega
          have : bitLenFuel fuel (n / 2) = (bitLenFuel fuel (n / 2) - 1) + 1 := by omega
          rw [this, pow_succ]; omega

/-- The fuel of `bitLen` is enough: `bitLen n` is the number of binary digits of `n`. -/
theorem bitLen_spec (n : Nat) : n < 2 ^ bitLen n ∧ (n ≠ 0 → 2 ^ (bitLen n - 1) ≤ n) :=
  bitLenFuel_spec n n (Nat.le_refl n)

/-! ### The nearest-even rendering and its uniqueness -/

theorem roundHalfEven_tie_even (n d : Nat) (hd : 0 < d)
    (h : 2 * |(roundHalfEven n d : Int) * d - n| = d) : roundHalfEven n d % 2 = 0 := by
  have hdm := Nat.div_add_mod n d
  have hlt := Nat.mod_lt n hd
  generalize hx : d * (n / d) = x at hdm
  have hq : ((n / d : Nat) : Int) * (d : Int) = (x : Int) := by
    rw [← hx]; push_cast; ring
  have hq1 : ((n / d + 1 : Nat) : Int) * (d : Int) = (x : Int) + d := by
    rw [← hx]; push_cast; ring
  unfold roundHalfEven at h ⊢
  simp only at h ⊢
  split_ifs at h ⊢ with h1 h2 h3
  · rw [hq] at h
    rcases abs_cases ((x : Int) - n) with ⟨e, _⟩ | ⟨e, _⟩ <;> rw [e] at h <;> omega
  · rw [hq1] at h
    rcases abs_cases ((x : Int) + d - n) with ⟨e, _⟩ | ⟨e, _⟩ <;> rw [e] at h <;> omega
  · exact h3
  · omega

theorem scaledDigits_tie_even (prec : Nat) (x : F64)
    (h : 2 * |(scaledDigits prec x : Int) * 2 ^ (-x.exp).toNat
          - (x.mant : Int) * 2 ^ x.exp.toNat * 10 ^ prec| = 2 ^ (-x.exp).toNat) :
    scaledDigits prec x % 2 = 0 := by
  unfold scaledDigits at h ⊢
  split_ifs at h ⊢ with h0
  · have e0 : (-x.exp).toNat = 0 := by omega
    rw [e0] at h
    push_cast at h
    simp at h
  · have e0 : x.exp.toNat = 0 := by omega
    rw [e0] at h
    apply roundHalfEven_tie_even _ _ (by positivity)
    push_cast at h ⊢
    simpa using h

theorem formatFixed_isNearestEvenRendering (prec : Nat) (hp : 0 < prec) (x : F64) :
    IsNearestEvenRendering prec x (formatFixed prec x) := by
  have hpow : 0 < 10 ^ prec := by positivity
  obtain ⟨hne, hdig, hval, hlead⟩ := natDigits_spec (scaledDigits prec x / 10 ^ prec)
  obtain ⟨flen, fdig, fval⟩ :=
    zeroPad_spec (scaledDigits prec x % 10 ^ prec) prec hp (Nat.mod_lt _ hpow)
  have hn : digitsVal (natDigits (scaledDigits prec x / 10 ^ prec)
      ++ zeroPad prec (natDigits (scaledDigits prec x % 10 ^ prec))) = scaledDigits prec x := by
    rw [digitsVal_append, hval, fval, flen, Nat.div_add_mod']
  refine ⟨natDigits (scaledDigits prec x / 10 ^ prec),
    zeroPad prec (natDigits (scaledDigits prec x % 10 ^ prec)), ?_, hne, hdig, hlead, flen, fdig,
    ?_, ?_⟩
  · simp [formatFixed, Nat.pos_iff_ne_zero.1 hp]
  · rw [hn]
    exact scaledDigits_near prec x
  · rw [hn]
    exact scaledDigits_tie_even prec x

theorem digitVal_injective (a b : Char) (ha : isDigitChar a = true) (hb : isDigitChar b = true)
    (h : digitVal a = digitVal b) : a = b := by
  have key : ∀ a ∈ ['0', '1', '2', '3', '4', '5', '6', '7', '8', '9'],
      ∀ b ∈ ['0', '1', '2', '3', '4', '5', '6', '7', '8', '9'],
      digitVal a = digitVal b → a = b := by decide
  exact key a (digit_cases a ha) b (digit_cases b hb) h

theorem digitVal_le_nine (c : Char) (h : isDigitChar c = true) : digitVal c ≤ 9 := by
  rw [isDigitChar_iff] at h
  unfold digitVal
  omega

theorem digitsVal_lt_pow : ∀ ds : List Char, (∀ c ∈ ds, isDigitChar c = true) →
    digitsVal ds < 10 ^ ds.length
  | [], _ => by simp [digitsVal]
  | c :: ds, h => by
    have h1 := digitVal_le_nine c (h c (by simp))
    have h2 := digitsVal_lt_pow ds (fun d hd => h d (by simp [hd]))
    rw [digitsVal_cons, List.length_cons, pow_succ]
    have h3 : digitVal c * 10 ^ ds.length ≤ 9 * 10 ^ ds.length := Nat.mul_le_mul_right _ h1
    omega

theorem digits_eq_of_length_of_val : ∀ a b : List Char,
    (∀ c ∈ a, isDigitChar c = true) → (∀ c ∈ b, isDigitChar c = true) →
    a.length = b.length → digitsVal a = digitsVal b → a = b
  | [], [], _, _, _, _ => rfl
  | [], _ :: _, _, _, hl, _ => by simp at hl
  | _ :: _, [], _, _, hl, _ => by simp at hl
  | c :: a, d :: b, ha, hb, hl, hv => by
    simp only [List.length_cons, Nat.add_right_cancel_iff] at hl
    have la := digitsVal_lt_pow a (fun x hx => ha x (by simp [hx]))
    have lb := digitsVal_lt_pow b (fun x hx => hb x (by simp [hx]))
    rw [digitsVal_cons, digitsVal_cons, hl] at hv
    rw [hl] at la
    have hcd : digitVal c = digitVal d := by
      rcases Nat.lt_trichotomy (digitVal c) (digitVal d) with h | h | h
      · have : (digitVal c + 1) * 10 ^ b.length ≤ digitVal d * 10 ^ b.length :=
          Nat.mul_le_mul_right _ h
        rw [Nat.add_mul] at this
        omega
      · exact h
      · have : (digitVal d + 1) * 10 ^ b.length ≤ digitVal c * 10 ^ b.length :=
          Nat.mul_le_mul_right _ h
        rw [Nat.add_mul] at this
        omega
    have hrest : digitsVal a = digitsVal b := by rw [hcd] at hv; omega
    rw [digitVal_injective c d (ha c (by simp)) (hb d (by simp)) hcd,
      digits_eq_of_length_of_val a b (fun x hx => ha x (by simp [hx]))
        (fun x hx => hb x (by simp [hx])) hl hrest]

theorem pow_le_digitsVal (ds : List Char) (hd : ∀ c ∈ ds, isDigitChar c = true)
    (hne : ds ≠ []) (hlead : ds.head? ≠ some '0') : 10 ^ (ds.length - 1) ≤ digitsVal ds := by
  cases ds with
  | nil => exact absurd rfl hne
  | cons c r =>
    have hc := hd c (by simp)
    have h1 : 1 ≤ digitVal c := by
      by_contra h0
      have hz : digitVal c = digitVal '0' := by
        have : digitVal c = 0 := by omega
        rw [this]; decide
      have := digitVal_injective c '0' hc (by decide) hz
      rw [this] at hlead
      simp at hlead
    rw [digitsVal_cons]
    simp only [List.length_cons, Nat.add_sub_cancel]
    have : 1 * 10 ^ r.length ≤ digitVal c * 10 ^ r.length := Nat.mul_le_mul_right _ h1
    omega

theorem canonical_digits_unique (a b : List Char)
    (ha : ∀ c ∈ a, isDigitChar c = true) (hb : ∀ c ∈ b, isDigitChar c = true)
    (nea : a ≠ []) (neb : b ≠ [])
    (ca : a = ['0'] ∨ a.head? ≠ some '0') (cb : b = ['0'] ∨ b.head? ≠ some '0')
    (hv : digitsVal a = digitsVal b) : a = b := by
  have zero_case : ∀ u w : List Char, (∀ c ∈ w, isDigitChar c = true) → w ≠ [] →
      (w = ['0'] ∨ w.head? ≠ some '0') → u = ['0'] → digitsVal u = digitsVal w → u = w := by
    intro u w hw nw cw hu huw
    rcases cw with h | h
    · rw [hu, h]
    · have h1 := pow_le_digitsVal w hw nw h
      have h2 : 0 < 10 ^ (w.length - 1) := by positivity
      have hz : digitsVal ['0'] = 0 := by decide
      rw [hu, hz] at huw
      omega
  rcases ca with h | h
  · exact zero_case a b hb neb cb h hv
  · rcases cb with h' | h'
    · exact (zero_case b a ha nea (Or.inr h) h' hv.symm).symm
    · have la := pow_le_digitsVal a ha nea h
      have lb := pow_le_digitsVal b hb neb h'
      have ua := digitsVal_lt_pow a ha
      have ub := digitsVal_lt_pow b hb
      have hlen : a.length = b.length := by
        rcases Nat.lt_trichotomy a.length b.length with h1 | h1 | h1
        · have : 10 ^ a.length ≤ 10 ^ (b.length - 1) :=
            Nat.pow_le_pow_right (by decide) (by omega)
          omega
        · exact h1
        · have : 10 ^ b.length ≤ 10 ^ (a.length - 1) :=
            Nat.pow_le_pow_right (by decide) (by omega)
          omega
      exact digits_eq_of_length_of_val a b ha hb hlen hv

theorem nearest_even_unique (n n' : Nat) (d m : Int) (hd : 0 < d)
    (h1 : 2 * |(n : Int) * d - m| ≤ d) (t1 : 2 * |(n : Int) * d - m| = d → n % 2 = 0)
    (h2 : 2 * |(n' : Int) * d - m| ≤ d) (t2 : 2 * |(n' : Int) * d - m| = d → n' % 2 = 0) :
    n = n' := by
  have key : ∀ a b : Nat, a < b → 2 * |(a : Int) * d - m| ≤ d →
      (2 * |(a : Int) * d - m| = d → a % 2 = 0) → 2 * |(b : Int) * d - m| ≤ d →
      (2 * |(b : Int) * d - m| = d → b % 2 = 0) → False := by
    intro a b hab ha ta hb tb
    have hstep : ((a : Int) + 1) * d ≤ (b : Int) * d :=
      mul_le_mul_of_nonneg_right (by exact_mod_cast hab) (le_of_lt hd)
    rw [add_mul, one_mul] at hstep
    have hA := abs_le.1 (show |(a : Int) * d - m| ≤ |(a : Int) * d - m| from le_refl _)
    have hB := abs_le.1 (show |(b : Int) * d - m| ≤ |(b : Int) * d - m| from le_refl _)
    have e1 : (b : Int) * d = (a : Int) * d + d := by omega
    have ea : 2 * |(a : Int) * d - m| = d := by omega
    have eb : 2 * |(b : Int) * d - m| = d := by omega
    have pa := ta ea
    have pb := tb eb
    have hb1 : (b : Int) = a + 1 := by
      have : (b : Int) * d = ((a : Int) + 1) * d := by rw [add_mul, one_mul]; exact e1
      exact mul_right_cancel₀ (ne_of_gt hd) this
    omega
  rcases Nat.lt_trichotomy n n' with h | h | h
  · exact absurd (key n n' h h1 t1 h2 t2) id
  · exact h
  · exact absurd (key n' n h h2 t2 h1 t1) id

/-- The rendering asked for by `IsNearestEvenRendering` is unique. -/
theorem isNearestEvenRendering_unique (prec : Nat) (x : F64) (s s' : List Char)
    (h : IsNearestEvenRendering prec x s) (h' : IsNearestEvenRendering prec x s') : s = s' := by
  obtain ⟨w, f, hs, wne, wd, wc, fl, fd, near, tie⟩ := h
  obtain ⟨w', f', hs', wne', wd', wc', fl', fd', near', tie'⟩ := h'
  have hn := nearest_even_unique _ _ _ _ (by positivity) near tie near' tie'
  rw [digitsVal_append, digitsVal_append, fl, fl'] at hn
  have b1 := digitsVal_lt_pow f fd
  have b2 := digitsVal_lt_pow f' fd'
  rw [fl] at b1
  rw [fl'] at b2
  have hw : digitsVal w = digitsVal w' := by
    rcases Nat.lt_trichotomy (digitsVal w) (digitsVal w') with h | h | h
    · have : (digitsVal w + 1) * 10 ^ prec ≤ digitsVal w' * 10 ^ prec :=
        Nat.mul_le_mul_right _ h
      rw [Nat.add_mul] at this
      omega
    · exact h
    · have : (digitsVal w' + 1) * 10 ^ prec ≤ digitsVal w * 10 ^ prec :=
        Nat.mul_le_mul_right _ h
      rw [Nat.add_mul] at this
      omega
  have hf : digitsVal f = digitsVal f' := by rw [hw] at hn; omega
  rw [hs, hs', canonical_digits_unique w w' wd wd' wne wne' wc wc' hw,
    digits_eq_of_length_of_val f f' fd fd' (by rw [fl, fl']) hf]

/-- C10. When the payload decodes with `len(time) ≤ len(temperature_2m)`, no index is out
of range: `extractWeatherData` returns and never panics.  And there is a decodable
payload with well-formed timestamps and `len(time) > len(temperature_2m)` on which the
access `temperature_2m[i]` is out of range, for every city: the call neither returns a
display nor an error. -/
theorem extractWeatherData_index_in_range :
    (∀ (city raw : String) (wr : WeatherResponse),
      unmarshalWeatherResponse raw = Except.ok wr →
      wr.Hourly.Time.length ≤ wr.Hourly.Temperature2m.length →
      (∃ r, extractWeatherData city raw = Outcome.returned r)
        ∧ ∀ p, extractWeatherData city raw ≠ Outcome.panicked p)
    ∧ ∃ (raw : String) (wr : WeatherResponse),
        unmarshalWeatherResponse raw = Except.ok wr
        ∧ wr.Hourly.Temperature2m.length < wr.Hourly.Time.length
        ∧ (∀ t ∈ wr.Hourly.Time, wellFormedTimestamp t = true)
        ∧ ∀ city : String, extractWeatherData city raw
            = Outcome.panicked (Panic.indexOutOfRange wr.Hourly.Temperature2m.length
                wr.Hourly.Temperature2m.length) := by
  refine ⟨?_, ?_⟩
  · intro city raw wr hdec hlen
    have hnp : ∀ p, extractWeatherData city raw ≠ Outcome.panicked p := by
      rw [extractWeatherData_of_decoded city raw wr hdec]
      exact rangeTimes_no_panic city _ _ 0 [] (by omega)
    refine ⟨?_, hnp⟩
    cases h : extractWeatherData city raw with
    | returned r => exact ⟨r, rfl⟩
    | panicked p => exact absurd h (hnp p)
  · refine ⟨rawMissingTemperature,
      WeatherResponse.mk F64.zero F64.zero ""
        (HourlyData.mk ["2023-10-01T00:00", "2023-10-01T01:00"]
          [F64.mk false 7430939385161318 (-50)]), by rfl, by decide, by decide, ?_⟩
    intro city
    have hdec : unmarshalWeatherResponse rawMissingTemperature
        = Except.ok (WeatherResponse.mk F64.zero F64.zero ""
            (HourlyData.mk ["2023-10-01T00:00", "2023-10-01T01:00"]
              [F64.mk false 7430939385161318 (-50)])) := by rfl
    rw [extractWeatherData_of_decoded city _ _ hdec]
    obtain ⟨d0, h0⟩ := Option.isSome_iff_exists.1
      (show (timeParse "2023-10-01T00:00").isSome = true by decide)
    obtain ⟨d1, h1⟩ := Option.isSome_iff_exists.1
      (show (timeParse "2023-10-01T01:00").isSome = true by decide)
    simp [rangeTimes, h0, h1]

/-- C10, at the payload with one sample: in range, so the call returns. -/
theorem extractWeatherData_index_in_range_witness :
    (∃ r, extractWeatherData "Ufa" rawOneSample = Outcome.returned r)
      ∧ ∀ p, extractWeatherData "Ufa" rawOneSample ≠ Outcome.panicked p :=
  extractWeatherData_index_in_range.1 "Ufa" rawOneSample
    (WeatherResponse.mk F64.zero F64.zero ""
      (HourlyData.mk ["2023-10-01T00:00"] [F64.mk false 7430939385161318 (-50)]))
    (by rfl) (by decide)

/-- C4. When the geocoding body decodes to a response whose `results` array is empty
(or absent, which decodes to the same nil slice), `getLatLong` returns the nil pointer,
so no coordinate at all, and the error `no results found`. -/
theorem getLatLong_no_results (net : Net) (city body : String) (response : GeoResponse)
    (hget : net.respond (geoEndpoint city) = Except.ok (Except.ok body))
    (hdec : decodeGeoResponse body = Except.ok response)
    (hres : response.Results = []) :
    (getLatLong net city).1 = (none, some (Error.New "no results found")) := by
  rw [getLatLong_of_decoded net city body response hget hdec, hres]
  simp

/-- C4, at the body with an empty `results` array; the empty object, where `results`
is absent, decodes to the same response. -/
theorem getLatLong_no_results_witness :
    decodeGeoResponse geoNoResults = Except.ok (GeoResponse.mk [])
      ∧ decodeGeoResponse rawEmptyObject = Except.ok (GeoResponse.mk [])
      ∧ (getLatLong (stubNet "Atlantis" geoNoResults rawThreeSamples) "Atlantis").1
        = (none, some (Error.New "no results found")) :=
  ⟨by rfl, by rfl,
    getLatLong_no_results (stubNet "Atlantis" geoNoResults rawThreeSamples) "Atlantis"
      geoNoResults (GeoResponse.mk []) (by rfl) (by rfl) (by rfl)⟩

/-- C5, as stated, fails at 6.55: the `float64` nearest to 6.55 is
`7374644389819187 / 2^50`, a fifth of a unit in the last place below 6.55, so the
temperature is rendered `6.5°C`, not `6.6°C`, also end to end through a payload. -/
theorem sprintfTemperature_halfway_counterexample :
    parseFloat false 655 (-2) = some (F64.mk false 7374644389819187 (-50))
      ∧ 655 * 2 ^ 50 = 7374644389819187 * 100 + 20
      ∧ (parseFloat false 655 (-2)).map sprintfTemperature = some "6.5°C"
      ∧ (parseFloat false 655 (-2)).map sprintfTemperature ≠ some "6.6°C"
      ∧ extractWeatherData "Ufa" rawHalfway
        = Outcome.returned (WeatherDisplay.mk "Ufa"
            [Forecast.mk "Sun 00:00" "6.5°C", Forecast.mk "Sun 01:00" "6.0°C"], none) :=
  ⟨by decide, by decide, by decide, by decide, by decide⟩

/-- C5, amended.  For every temperature the string is the decimal rendering of the exact
value of the `float64` with exactly one digit after the point, rounded to the nearest
tenth and at an exact tie to the even digit, followed by `°C`, and no other string is
such a rendering; 6.0 gives `6.0°C`, the `float64` read from 6.55 gives `6.5°C`, and the
exact ties 0.25 and 0.75 give `0.2°C` and `0.8°C`. -/
theorem sprintfTemperature_one_decimal :
    (∀ x : F64, ∃ s : List Char,
        sprintfTemperature x = String.mk s ++ "°C" ∧ IsNearestEvenRendering 1 x s
          ∧ ∀ s' : List Char, IsNearestEvenRendering 1 x s' → s' = s)
      ∧ (parseFloat false 6 0).map sprintfTemperature = some "6.0°C"
      ∧ (parseFloat false 655 (-2)).map sprintfTemperature = some "6.5°C"
      ∧ (parseFloat false 25 (-2)).map sprintfTemperature = some "0.2°C"
      ∧ (parseFloat false 75 (-2)).map sprintfTemperature = some "0.8°C" :=
  ⟨fun x => ⟨formatFixed 1 x, rfl, formatFixed_isNearestEvenRendering 1 (by decide) x,
      fun s' h' => isNearestEvenRendering_unique 1 x s' _ h'
        (formatFixed_isNearestEvenRendering 1 (by decide) x)⟩,
    by decide, by decide, by decide, by decide⟩

/-- C9. `getWeather` requests the forecast endpoint with the query
`latitude=<lat>&longitude=<lon>&hourly=temperature_2m`, where `<lat>` and `<lon>` render
the coordinates in decimal with exactly six digits after the point; (53.625, 55.9375)
gives `latitude=53.625000&longitude=55.937500`. -/
theorem getWeather_query_six_decimals :
    (∀ (net : Net) (latLong : LatLong),
      (getWeather net latLong).2.requests
          = net.requests ++ ["https://api.open-meteo.com/v1/forecast?" ++ weatherQuery latLong]
        ∧ ∃ lat lon : List Char,
            weatherQuery latLong = "latitude=" ++ String.mk lat ++ "&longitude="
              ++ String.mk lon ++ "&hourly=temperature_2m"
            ∧ IsFixedRendering 6 latLong.Latitude lat
            ∧ IsFixedRendering 6 latLong.Longitude lon)
      ∧ weatherQuery sampleLatLong
          = "latitude=53.625000&longitude=55.937500&hourly=temperature_2m" := by
  refine ⟨?_, by decide⟩
  intro net latLong
  refine ⟨?_, formatFixed 6 latLong.Latitude, formatFixed 6 latLong.Longitude, rfl,
    formatFixed_isFixedRendering 6 (by decide) _, formatFixed_isFixedRendering 6 (by decide) _⟩
  rw [getWeather_net]
  rfl

/-- C6. `time.Parse` accepts every well-formed timestamp, and the formatted date is the
abbreviated weekday of its calendar date, a space, and the `HH:MM` of the input.  So when
the payload decodes, `temperature_2m` is at least as long as `time` and `time.Parse`
accepts every timestamp, `extractWeatherData` returns a display with one forecast per
timestamp in which the `Date` at the index of every well-formed timestamp is that string;
and the same holds of that `Date` in any display that `extractWeatherData` returns. -/
theorem forecast_date_weekday_and_time :
    (∀ t : String, wellFormedTimestamp t = true →
      ∃ date, timeParse t = some date ∧ timeFormat date = expectedDate t)
    ∧ (∀ (city raw : String) (wr : WeatherResponse),
        unmarshalWeatherResponse raw = Except.ok wr →
        wr.Hourly.Time.length ≤ wr.Hourly.Temperature2m.length →
        (∀ t ∈ wr.Hourly.Time, (timeParse t).isSome = true) →
        ∃ wd : WeatherDisplay, extractWeatherData city raw = Outcome.returned (wd, none)
          ∧ wd.Forecasts.length = wr.Hourly.Time.length
          ∧ ∀ (i : Nat) (t : String), wr.Hourly.Time[i]? = some t →
              wellFormedTimestamp t = true →
              (wd.Forecasts[i]?).map Forecast.Date = some (expectedDate t))
    ∧ ∀ (city raw : String) (wr : WeatherResponse) (wd : WeatherDisplay),
        unmarshalWeatherResponse raw = Except.ok wr →
        extractWeatherData city raw = Outcome.returned (wd, none) →
        ∀ (i : Nat) (t : String), wr.Hourly.Time[i]? = some t → wellFormedTimestamp t = true →
          (wd.Forecasts[i]?).map Forecast.Date = some (expectedDate t) := by
  have key : ∀ (city raw : String) (wr : WeatherResponse) (wd : WeatherDisplay),
      unmarshalWeatherResponse raw = Except.ok wr →
      extractWeatherData city raw = Outcome.returned (wd, none) →
      ∀ (i : Nat) (t : String), wr.Hourly.Time[i]? = some t → wellFormedTimestamp t = true →
        (wd.Forecasts[i]?).map Forecast.Date = some (expectedDate t) := by
    intro city raw wr wd hdec hrun i t ht hwf
    rw [extractWeatherData_of_decoded city raw wr hdec] at hrun
    obtain ⟨_, _, _, hidx⟩ := rangeTimes_returned city _ _ 0 [] wd hrun
    obtain ⟨date, x, hp, _, hf⟩ := hidx i t ht
    obtain ⟨d2, hd2, hfmt⟩ := timeFormat_of_wellFormed t hwf
    rw [hp] at hd2
    simp only [Option.some.injEq] at hd2
    subst hd2
    simp only [List.length_nil, Nat.zero_add] at hf
    rw [hf, ← hfmt]
    rfl
  refine ⟨timeFormat_of_wellFormed, ?_, key⟩
  intro city raw wr hdec hlen hacc
  obtain ⟨wd, hrun⟩ := rangeTimes_succeeds city wr.Hourly.Temperature2m wr.Hourly.Time 0 []
    hacc (by omega)
  obtain ⟨_, hl, _, _⟩ := rangeTimes_returned city _ _ 0 [] wd hrun
  have hex : extractWeatherData city raw = Outcome.returned (wd, none) := by
    rw [extractWeatherData_of_decoded city raw wr hdec, hrun]
  exact ⟨wd, hex, by simpa using hl, key city raw wr wd hdec hex⟩

/-- C6, at a payload whose first timestamp has a one-digit hour and whose second is the
well-formed `2023-10-01T06:00`, a Sunday: `extractWeatherData` returns two forecasts, and
the second `Date` is `Sun 06:00`. -/
theorem forecast_date_weekday_and_time_witness :
    wellFormedTimestamp "2023-10-01T06:00" = true
      ∧ wellFormedTimestamp "2023-10-01T5:04" = false
      ∧ expectedDate "2023-10-01T06:00" = "Sun 06:00"
      ∧ extractWeatherData "Ufa" rawMixedHours
        = Outcome.returned (WeatherDisplay.mk "Ufa"
            [Forecast.mk "Sun 05:04" "6.6°C", Forecast.mk "Sun 06:00" "0.2°C"], none)
      ∧ ∃ wd : WeatherDisplay, extractWeatherData "Ufa" rawMixedHours = Outcome.returned (wd, none)
          ∧ wd.Forecasts.length = 2
          ∧ ∀ (i : Nat) (t : String),
              ["2023-10-01T5:04", "2023-10-01T06:00"][i]? = some t →
              wellFormedTimestamp t = true →
              (wd.Forecasts[i]?).map Forecast.Date = some (expectedDate t) := by
  refine ⟨by decide, by decide, ?_, by decide,
    forecast_date_weekday_and_time.2.1 "Ufa" rawMixedHours
      (WeatherResponse.mk F64.zero F64.zero ""
        (HourlyData.mk ["2023-10-01T5:04", "2023-10-01T06:00"]
          [F64.mk false 7430939385161318 (-50), F64.mk false 4503599627370496 (-54)]))
      (by rfl) (by decide) (by decide)⟩
  obtain ⟨date, hp, hf⟩ := forecast_date_weekday_and_time.1 "2023-10-01T06:00" (by decide)
  have h : (timeParse "2023-10-01T06:00").map timeFormat = some "Sun 06:00" := by decide
  rw [hp] at h
  simp only [Option.map_some', Option.some.injEq] at h
  rw [← hf, h]

/-- C7. The claim asks for a `500` reply with an `error` message whenever the three steps
do not all succeed; the handlers miss the case in which `extractWeatherData` panics.
With a geocoding stub holding results and a forecast stub holding two well-formed
timestamps and one temperature, `getLatLong` and `getWeather` succeed,
`extractWeatherData` panics with the index out of range, and both weather handlers
end in that panic without having written any reply. -/
theorem weather_routes_panic_without_reply :
    (getLatLong (stubNet "Paris" geoTwoResults rawMissingTemperature) "Paris").1
        = (some sampleLatLong, none)
      ∧ (getWeather (getLatLong (stubNet "Paris" geoTwoResults rawMissingTemperature)
            "Paris").2 sampleLatLong).1 = (rawMissingTemperature, none)
      ∧ extractWeatherData "Paris" rawMissingTemperature
        = Outcome.panicked (Panic.indexOutOfRange 1 1)
      ∧ (weatherJSONHandler (stubNet "Paris" geoTwoResults rawMissingTemperature) "Paris").1
        = Outcome.panicked (Panic.indexOutOfRange 1 1)
      ∧ (weatherHandler (stubNet "Paris" geoTwoResults rawMissingTemperature) "Paris").1
        = Outcome.panicked (Panic.indexOutOfRange 1 1) :=
  ⟨by decide, by decide, by decide, by decide, by decide⟩

/-- Outside that panic both weather routes follow the pipeline contract: `/weatherJSON`
replies `200` with `OK: WeatherDisplay` (and `/weather` renders `weather.html` with it)
exactly when `getLatLong`, `getWeather` and `extractWeatherData` succeed in turn; when a
step returns an error the reply is `500` with the message of that first failing step
and no later step is run. -/
theorem weather_routes_follow_pipeline :
    PipelineContract weatherJSONHandler (fun wd => Reply.JSON StatusOK (H.OK wd))
      ∧ PipelineContract weatherHandler
          (fun wd => Reply.HTML StatusOK "weather.html" (some wd)) := by
  rw [weatherJSONHandler_eq_pipeline, weatherHandler_eq_pipeline]
  constructor
  · apply weatherPipeline_contract
    · intro a b h
      simpa using h
    · intro wd err h
      simp [StatusOK, StatusInternalServerError] at h
  · apply weatherPipeline_contract
    · intro a b h
      simpa using h
    · intro wd err h
      simp at h

/-- The pipeline end to end: for the city Paris, a geocoding stub with results and a
forecast stub with three hourly samples give `200` with `OK.City = "Paris"` and three
forecasts, after exactly two requests; and when the geocoding request fails the reply
is `500` with that error after one request. -/
theorem weather_routes_paris_end_to_end :
    (weatherJSONHandler (stubNet "Paris" geoTwoResults rawThreeSamples) "Paris").1
        = Outcome.returned (Reply.JSON 200 (H.OK (WeatherDisplay.mk "Paris"
            [Forecast.mk "Sun 00:00" "6.6°C", Forecast.mk "Sun 01:00" "6.2°C",
             Forecast.mk "Sun 02:00" "5.6°C"])))
      ∧ (weatherJSONHandler (stubNet "Paris" geoTwoResults rawThreeSamples) "Paris").2.requests
        = ["https://geocoding-api.open-meteo.com/v1/search?name=Paris&count=1&language=en&format=json",
           "https://api.open-meteo.com/v1/forecast?latitude=53.625000&longitude=55.937500&hourly=temperature_2m"]
      ∧ (weatherJSONHandler downNet "Paris"
            = (Outcome.returned (Reply.JSON 500 (H.error
                (Error.Errorf "error making request to Geo API"
                  (Cause.http "connection refused")))),
               (getLatLong downNet "Paris").2)
          ∧ (weatherJSONHandler downNet "Paris").2.requests
            = [] ++ [geoEndpoint "Paris"]) :=
  ⟨((weather_routes_follow_pipeline.1 (stubNet "Paris" geoTwoResults rawThreeSamples)
        "Paris").1 _).2 ⟨sampleLatLong, rawThreeSamples, by decide, by decide, by decide⟩,
    by decide,
    (weather_routes_follow_pipeline.1 downNet "Paris").2.1 none _ (by decide)⟩

/-- Repeated keys are decoded in place: a `null` element of the second array keeps the
element that the first array left in the slice. -/
theorem repeated_keys_decode_in_place :
    unmarshalWeatherResponse rawRepeatedTemperature
        = Except.ok (WeatherResponse.mk F64.zero F64.zero ""
            (HourlyData.mk ["2023-10-01T00:00"] [F64.mk false 7430939385161318 (-50)]))
      ∧ extractWeatherData "Ufa" rawRepeatedTemperature
        = Outcome.returned (WeatherDisplay.mk "Ufa" [Forecast.mk "Sun 00:00" "6.6°C"], none)
      ∧ unmarshalWeatherResponse rawRepeatedTime
        = Except.ok (WeatherResponse.mk F64.zero F64.zero ""
            (HourlyData.mk ["2023-10-01T00:00"] [F64.mk false 7430939385161318 (-50)]))
      ∧ extractWeatherData "Ufa" rawRepeatedTime
        = Outcome.returned (WeatherDisplay.mk "Ufa" [Forecast.mk "Sun 00:00" "6.6°C"], none) :=
  ⟨by rfl, by decide, by rfl, by decide⟩

end GoWeather
